import Mathlib

/-!
Shallow embedding of the key-decoding / key-matching engine of
`src/crates/pi-natives/src/keys.rs` (repository `policecar/oh-my-pi`).

Byte slices (`&[u8]`) are modelled as `List Nat`.  Rust slice indexing can
panic, so every function that indexes into the byte slice is written in the
panic monad `Except Unit`: `.error ()` is the panic outcome, `.ok` the normal
return.  The exported operations are recovered as plain functions by
discharging the `Except` layer; the no-panic theorems show the `.error`
branch is unreachable for the exported entry points.

Machine integers: `u32` values are `Nat` with explicit `< 2^32` checks where
the source uses `checked_mul` / `checked_add`, and `i32` codepoints are `Int`
(the source uses negative sentinel codes for non-textual keys).
-/

namespace OhMyPi

/-- Models Rust slice indexing `bytes[i]` on a `&[u8]`: out-of-bounds
indexing panics, represented as `Except.error ()`. -/
def getByte (bs : List Nat) (i : Nat) : Except Unit Nat :=
  match bs[i]? with
  | some b => .ok b
  | none => .error ()

/-- `const LOCK_MASK: u32 = 64 + 128` (keys.rs line 18). -/
def LOCK_MASK : Nat := 64 + 128

/-- The `u32` complement `!LOCK_MASK`, i.e. `0xFFFFFF3F`. -/
def NOT_LOCK_MASK : Nat := 4294967103

-- Internal sentinel codes for CSI 1;mod <letter> forms (keys.rs lines 21-45):
def ARROW_UP : Int := -1
def ARROW_DOWN : Int := -2
def ARROW_RIGHT : Int := -3
def ARROW_LEFT : Int := -4

def FUNC_DELETE : Int := -10
def FUNC_INSERT : Int := -11
def FUNC_PAGE_UP : Int := -12
def FUNC_PAGE_DOWN : Int := -13
def FUNC_HOME : Int := -14
def FUNC_END : Int := -15
def FUNC_CLEAR : Int := -16

def FUNC_F1 : Int := -20
def FUNC_F2 : Int := -21
def FUNC_F3 : Int := -22
def FUNC_F4 : Int := -23
def FUNC_F5 : Int := -24
def FUNC_F6 : Int := -25
def FUNC_F7 : Int := -26
def FUNC_F8 : Int := -27
def FUNC_F9 : Int := -28
def FUNC_F10 : Int := -29
def FUNC_F11 : Int := -30
def FUNC_F12 : Int := -31

def CP_ESCAPE : Int := 27
def CP_TAB : Int := 9
def CP_ENTER : Int := 13
def CP_SPACE : Int := 32
def CP_BACKSPACE : Int := 127
def CP_KP_ENTER : Int := 57414

def MOD_SHIFT : Nat := 1
def MOD_ALT : Nat := 2
def MOD_CTRL : Nat := 4

/-- Parsed Kitty keyboard protocol sequence (keys.rs lines 58-65). -/
structure ParsedKittySequence where
  codepoint : Int
  shifted_key : Option Int
  base_layout_key : Option Int
  modifier : Nat
  event_type : Option Nat
deriving Repr, DecidableEq

/-- `u8::is_ascii_digit`. -/
def isDigitByte (b : Nat) : Bool := 48 ≤ b && b ≤ 57

/-- `i32::try_from(v: u32).ok()`. -/
def i32_try_from (v : Nat) : Option Int :=
  if v < 2147483648 then some (Int.ofNat v) else none

/-- The loop of `parse_digits` (keys.rs lines 1157-1164): accumulate `value`,
advancing while the byte under the cursor is an ASCII digit, with `u32`
checked arithmetic (`checked_mul` / `checked_add` return `None` exactly when
`value * 10 + digit` does not fit in a `u32`).  The loop condition is the
guard `idx < end_`; `fuel` is only a structural bound on the number of
iterations, and callers pass `end_ - idx`, which suffices because the cursor
advances by one every iteration. -/
def parseDigitsGo (bs : List Nat) (end_ : Nat) :
    Nat → Nat → Nat → Except Unit (Option (Nat × Nat))
  | 0, idx, value => .ok (some (value, idx))
  | fuel + 1, idx, value =>
    if idx < end_ then
      match getByte bs idx with
      | .error e => .error e
      | .ok b =>
        if isDigitByte b then
          let v := value * 10 + (b - 48)
          if v < 4294967296 then parseDigitsGo bs end_ fuel (idx + 1) v
          else .ok none
        else .ok (some (value, idx))
    else .ok (some (value, idx))

/-- `parse_digits` (keys.rs lines 1152-1166): fails (`none`) when the window
does not begin with a digit or on `u32` overflow, otherwise returns the value
and the index one past the digit run. -/
def parse_digits (bs : List Nat) (idx end_ : Nat) :
    Except Unit (Option (Nat × Nat)) :=
  if idx ≥ end_ then .ok none
  else
    match getByte bs idx with
    | .error e => .error e
    | .ok b =>
      if !isDigitByte b then .ok none
      else parseDigitsGo bs end_ (end_ - idx) idx 0

/-- `parse_optional_digits` (keys.rs lines 1169-1174). -/
def parse_optional_digits (bs : List Nat) (idx end_ : Nat) :
    Except Unit (Option Nat × Nat) :=
  if idx ≥ end_ then .ok (none, idx)
  else
    match getByte bs idx with
    | .error e => .error e
    | .ok b =>
      if !isDigitByte b then .ok (none, idx)
      else
        match parse_digits bs idx end_ with
        | .error e => .error e
        | .ok none => .ok (none, idx)
        | .ok (some (v, i)) => .ok (some v, i)

/-- Models the ubiquitous Rust guard pattern `idx < end && bytes[idx] == c`
(the index is only read when `idx < end`, so no panic when `end ≤ len`). -/
def peekIs (bs : List Nat) (idx end_ c : Nat) : Except Unit Bool :=
  if idx < end_ then
    match getByte bs idx with
    | .error e => .error e
    | .ok b => .ok (b == c)
  else .ok false

/-- Models `idx < end && bytes[idx].is_ascii_digit()`. -/
def peekDigit (bs : List Nat) (idx end_ : Nat) : Except Unit Bool :=
  if idx < end_ then
    match getByte bs idx with
    | .error e => .error e
    | .ok b => .ok (isDigitByte b)
  else .ok false

/-- The `;text-as-codepoints` validation loop of `parse_csi_u`
(keys.rs lines 933-943): skip colons and digit runs until the cursor
reaches `end`; a malformed run aborts the whole CSI-u parse. Returns the
final cursor.  The loop condition is the guard `idx < end_`; `fuel` is a
structural bound on the iterations (every iteration advances the cursor by
at least one, so callers pass `end_ - idx`). -/
def csiUTextGo (bs : List Nat) (end_ : Nat) :
    Nat → Nat → Except Unit (Option Nat)
  | 0, idx => .ok (some idx)
  | fuel + 1, idx =>
    if idx < end_ then
      match getByte bs idx with
      | .error e => .error e
      | .ok b =>
        if b == 58 then csiUTextGo bs end_ fuel (idx + 1)
        else
          match parse_digits bs idx end_ with
          | .error e => .error e
          | .ok none => .ok none
          | .ok (some (_, j)) =>
            match peekIs bs j end_ 58 with
            | .error e => .error e
            | .ok true => csiUTextGo bs end_ fuel (j + 1)
            | .ok false => csiUTextGo bs end_ fuel j
    else .ok (some idx)

/-- Entry to the optional `;text-as-codepoints` field (keys.rs
lines 929-944): if the cursor is on `;`, consume it and run the
validation loop, else leave the cursor alone. -/
def csiUText (bs : List Nat) (end_ idx : Nat) : Except Unit (Option Nat) :=
  match peekIs bs idx end_ 59 with
  | .error e => .error e
  | .ok true => csiUTextGo bs end_ (end_ - (idx + 1)) (idx + 1)
  | .ok false => .ok (some idx)

/-- The `:alternate-key-codes` (shifted[:base_layout]) block of
`parse_csi_u` (keys.rs lines 885-901).  Returns
(shifted_key, base_layout_key, next cursor); `none` aborts the CSI-u parse
(the `?` on `parse_digits` / `i32::try_from` for the base layout key). -/
def csiUAlt (bs : List Nat) (end_ idx : Nat) :
    Except Unit (Option (Option Int × Option Int × Nat)) :=
  match peekIs bs idx end_ 58 with
  | .error e => .error e
  | .ok false => .ok (some (none, none, idx))
  | .ok true =>
    match parse_optional_digits bs (idx + 1) end_ with
    | .error e => .error e
    | .ok (sv, idx2) =>
      let shifted := sv.bind i32_try_from
      match peekIs bs idx2 end_ 58 with
      | .error e => .error e
      | .ok false => .ok (some (shifted, none, idx2))
      | .ok true =>
        match parse_digits bs (idx2 + 1) end_ with
        | .error e => .error e
        | .ok none => .ok none
        | .ok (some (bv, idx3)) =>
          match i32_try_from bv with
          | none => .ok none
          | some b => .ok (some (shifted, some b, idx3))

/-- The `;modifiers[:event-type]` block of `parse_csi_u` (keys.rs
lines 905-927).  The modifiers digits may be absent (then 1); returns
(mod_value, event_type, next cursor). -/
def csiUMods (bs : List Nat) (end_ idx : Nat) :
    Except Unit (Option (Nat × Option Nat × Nat)) :=
  match peekIs bs idx end_ 59 with
  | .error e => .error e
  | .ok false => .ok (some (1, none, idx))
  | .ok true =>
    match peekDigit bs (idx + 1) end_ with
    | .error e => .error e
    | .ok hasDigits =>
      match (if hasDigits then parse_digits bs (idx + 1) end_
             else .ok (some (1, idx + 1))) with
      | .error e => .error e
      | .ok none => .ok none
      | .ok (some (mv, idx2)) =>
        match peekIs bs idx2 end_ 58 with
        | .error e => .error e
        | .ok false => .ok (some (mv, none, idx2))
        | .ok true =>
          match parse_digits bs (idx2 + 1) end_ with
          | .error e => .error e
          | .ok none => .ok none
          | .ok (some (ev, idx3)) => .ok (some (mv, some ev, idx3))

/-- `parse_csi_u` (keys.rs lines 876-957).  `end_` is the index of the
terminating `u`; decode fails when the cursor does not land exactly on the
terminator or when the raw modifier value is 0. -/
def parse_csi_u (bytes : List Nat) : Except Unit (Option ParsedKittySequence) :=
  let end_ := bytes.length - 1
  match parse_digits bytes 2 end_ with
  | .error e => .error e
  | .ok none => .ok none
  | .ok (some (cpU, idx1)) =>
    match i32_try_from cpU with
    | none => .ok none
    | some codepoint =>
      match csiUAlt bytes end_ idx1 with
      | .error e => .error e
      | .ok none => .ok none
      | .ok (some (shifted, base, idx2)) =>
        match csiUMods bytes end_ idx2 with
        | .error e => .error e
        | .ok none => .ok none
        | .ok (some (mv, ev, idx3)) =>
          match csiUText bytes end_ idx3 with
          | .error e => .error e
          | .ok none => .ok none
          | .ok (some idx4) =>
            if idx4 != end_ || mv == 0 then .ok none
            else .ok (some ⟨codepoint, shifted, base, mv - 1, ev⟩)

/-- Letter dispatch of `parse_csi_1_letter` (keys.rs lines 981-994). -/
def csi1Letter (b : Nat) : Option Int :=
  if b == 65 then some ARROW_UP
  else if b == 66 then some ARROW_DOWN
  else if b == 67 then some ARROW_RIGHT
  else if b == 68 then some ARROW_LEFT
  else if b == 72 then some FUNC_HOME
  else if b == 70 then some FUNC_END
  else if b == 69 then some FUNC_CLEAR
  else if b == 80 then some FUNC_F1
  else if b == 81 then some FUNC_F2
  else if b == 82 then some FUNC_F3
  else if b == 83 then some FUNC_F4
  else none

/-- Tail of `parse_csi_1_letter` (keys.rs lines 977-1002): check the cursor
sits right before the single terminator letter and the raw modifier is
non-zero, then map the letter. -/
def csi1Finish (bytes : List Nat) (end_ : Nat) (ev : Option Nat)
    (mv idx : Nat) : Except Unit (Option ParsedKittySequence) :=
  if idx + 1 != end_ || mv == 0 then .ok none
  else
    match getByte bytes idx with
    | .error e => .error e
    | .ok b =>
      match csi1Letter b with
      | none => .ok none
      | some cp => .ok (some ⟨cp, none, none, mv - 1, ev⟩)

/-- `parse_csi_1_letter` (keys.rs lines 959-1003): `CSI 1;mod[:event]<letter>`. -/
def parse_csi_1_letter (bytes : List Nat) :
    Except Unit (Option ParsedKittySequence) :=
  if !([27, 91, 49, 59].isPrefixOf bytes) then .ok none
  else
    let end_ := bytes.length
    match parse_digits bytes 4 end_ with
    | .error e => .error e
    | .ok none => .ok none
    | .ok (some (mv, idx1)) =>
      match peekIs bytes idx1 end_ 58 with
      | .error e => .error e
      | .ok true =>
        match parse_digits bytes (idx1 + 1) end_ with
        | .error e => .error e
        | .ok none => .ok none
        | .ok (some (ev, idx2)) => csi1Finish bytes end_ (some ev) mv idx2
      | .ok false => csi1Finish bytes end_ none mv idx1

/-- Key-number table of `parse_functional` (keys.rs lines 1032-1058). -/
def functionalKeyCode (n : Nat) : Option Int :=
  if n == 2 then some FUNC_INSERT
  else if n == 3 then some FUNC_DELETE
  else if n == 5 then some FUNC_PAGE_UP
  else if n == 6 then some FUNC_PAGE_DOWN
  else if n == 1 || n == 7 then some FUNC_HOME
  else if n == 4 || n == 8 then some FUNC_END
  else if n == 11 then some FUNC_F1
  else if n == 12 then some FUNC_F2
  else if n == 13 then some FUNC_F3
  else if n == 14 then some FUNC_F4
  else if n == 15 then some FUNC_F5
  else if n == 17 then some FUNC_F6
  else if n == 18 then some FUNC_F7
  else if n == 19 then some FUNC_F8
  else if n == 20 then some FUNC_F9
  else if n == 21 then some FUNC_F10
  else if n == 23 then some FUNC_F11
  else if n == 24 then some FUNC_F12
  else none

/-- Tail of `parse_functional` (keys.rs lines 1028-1066). -/
def functionalDone (keyNum mv : Nat) (ev : Option Nat) (idx end_ : Nat) :
    Except Unit (Option ParsedKittySequence) :=
  if idx != end_ || mv == 0 then .ok none
  else
    match functionalKeyCode keyNum with
    | none => .ok none
    | some cp => .ok (some ⟨cp, none, none, mv - 1, ev⟩)

/-- Optional `:event-type` of `parse_functional` (keys.rs lines 1020-1026). -/
def functionalEvent (bytes : List Nat) (end_ keyNum mv idx : Nat) :
    Except Unit (Option ParsedKittySequence) :=
  match peekIs bytes idx end_ 58 with
  | .error e => .error e
  | .ok true =>
    match parse_digits bytes (idx + 1) end_ with
    | .error e => .error e
    | .ok none => .ok none
    | .ok (some (ev, idx2)) => functionalDone keyNum mv (some ev) idx2 end_
  | .ok false => functionalDone keyNum mv none idx end_

/-- `parse_functional` (keys.rs lines 1005-1067): `CSI <key-number>[;mods[:event]]~`. -/
def parse_functional (bytes : List Nat) :
    Except Unit (Option ParsedKittySequence) :=
  let end_ := bytes.length - 1
  match parse_digits bytes 2 end_ with
  | .error e => .error e
  | .ok none => .ok none
  | .ok (some (keyNum, idx1)) =>
    match peekIs bytes idx1 end_ 59 with
    | .error e => .error e
    | .ok true =>
      match parse_digits bytes (idx1 + 1) end_ with
      | .error e => .error e
      | .ok none => .ok none
      | .ok (some (mv, idx2)) => functionalEvent bytes end_ keyNum mv idx2
    | .ok false => functionalEvent bytes end_ keyNum 1 idx1

/-- `parse_kitty_sequence` (keys.rs lines 860-874): require `ESC [` and
length at least 4, then dispatch on the final byte. -/
def parse_kitty_sequenceE (bytes : List Nat) :
    Except Unit (Option ParsedKittySequence) :=
  if bytes.length < 4 then .ok none
  else
    match getByte bytes 0 with
    | .error e => .error e
    | .ok b0 =>
      if b0 != 27 then .ok none
      else
        match getByte bytes 1 with
        | .error e => .error e
        | .ok b1 =>
          if b1 != 91 then .ok none
          else
            match bytes.getLast? with
            | none => .ok none
            | some last0 =>
              if last0 == 117 then parse_csi_u bytes
              else if last0 == 126 then parse_functional bytes
              else if last0 == 65 || last0 == 66 || last0 == 67 ||
                  last0 == 68 || last0 == 69 || last0 == 70 ||
                  last0 == 72 || last0 == 80 || last0 == 81 ||
                  last0 == 82 || last0 == 83 then
                parse_csi_1_letter bytes
              else .ok none

/-- Body of `parse_modify_other_keys` after the trailing `~` has been
stripped (keys.rs lines 326-347); `end_` is the exclusive end of the
digit fields. -/
def mokTail (bytes : List Nat) (end_ : Nat) :
    Except Unit (Option (Nat × Int)) :=
  if end_ ≤ 5 then .ok none
  else
    match parse_digits bytes 5 end_ with
      | .error e => .error e
      | .ok none => .ok none
      | .ok (some (mv, idx1)) =>
        match peekIs bytes idx1 end_ 59 with
        | .error e => .error e
        | .ok false => .ok none
        | .ok true =>
          match parse_digits bytes (idx1 + 1) end_ with
          | .error e => .error e
          | .ok none => .ok none
          | .ok (some (kc, idx2)) =>
            if idx2 != end_ || mv == 0 then .ok none
            else
              match i32_try_from kc with
              | none => .ok none
              | some k => .ok (some (mv - 1, k))

/-- `parse_modify_other_keys` (keys.rs lines 316-348):
`CSI 27 ; modifiers ; keycode [~]`. -/
def parse_modify_other_keysE (bytes : List Nat) :
    Except Unit (Option (Nat × Int)) :=
  if bytes.length < 7 || !([27, 91, 50, 55, 59].isPrefixOf bytes) then .ok none
  else
    mokTail bytes (if bytes.getLast? == some 126 then bytes.length - 1
      else bytes.length)

-- =============================================================================
-- Static tables (keys.rs lines 79-170)
-- =============================================================================

/-- `ASCII_PRINTABLE[(c - 33)]` (keys.rs lines 117-123): the pre-allocated
table holds exactly the single-character strings for bytes 33..=126, so the
lookup is the one-character string of the byte itself. -/
def ascii_printable (c : Nat) : String := String.singleton (Char.ofNat c)

/-- `LETTERS[(c - 97)]` (keys.rs lines 167-170). -/
def letter_string (c : Nat) : String := String.singleton (Char.ofNat c)

/-- `CTRL_LETTERS[(code - 1)]` (keys.rs lines 126-130): `code` in 1..=26. -/
def ctrl_letter_string (code : Nat) : String :=
  "ctrl+" ++ String.singleton (Char.ofNat (96 + code))

/-- `ALT_LETTERS[(c - 97)]` (keys.rs lines 132-136): `c` in 97..=122. -/
def alt_letter_string (c : Nat) : String :=
  "alt+" ++ String.singleton (Char.ofNat c)

/-- `CTRL_ALT_LETTERS[(code - 1)]` (keys.rs lines 138-165): `code` in 1..=26. -/
def ctrl_alt_letter_string (code : Nat) : String :=
  "ctrl+alt+" ++ String.singleton (Char.ofNat (96 + code))

/-- `LEGACY_SEQUENCES` (keys.rs lines 79-114), as an association list.
The phf map's keys are pairwise distinct, so first-match lookup agrees
with map lookup. -/
def LEGACY_SEQUENCES : List (List Nat × String) := [
  -- Arrow keys (SS3 and CSI)
  ([27, 79, 65], "up"), ([27, 79, 66], "down"),
  ([27, 79, 67], "right"), ([27, 79, 68], "left"),
  ([27, 91, 65], "up"), ([27, 91, 66], "down"),
  ([27, 91, 67], "right"), ([27, 91, 68], "left"),
  -- Home/End (multiple terminal variants)
  ([27, 79, 72], "home"), ([27, 79, 70], "end"),
  ([27, 91, 72], "home"), ([27, 91, 70], "end"),
  ([27, 91, 49, 126], "home"), ([27, 91, 55, 126], "home"),
  ([27, 91, 52, 126], "end"), ([27, 91, 56, 126], "end"),
  -- Clear
  ([27, 91, 69], "clear"), ([27, 79, 69], "clear"),
  ([27, 79, 101], "ctrl+clear"), ([27, 91, 101], "shift+clear"),
  -- Insert/Delete
  ([27, 91, 50, 126], "insert"), ([27, 91, 50, 36], "shift+insert"),
  ([27, 91, 50, 94], "ctrl+insert"),
  ([27, 91, 51, 126], "delete"), ([27, 91, 51, 36], "shift+delete"),
  ([27, 91, 51, 94], "ctrl+delete"),
  -- Page Up/Down
  ([27, 91, 53, 126], "pageUp"), ([27, 91, 54, 126], "pageDown"),
  ([27, 91, 91, 53, 126], "pageUp"), ([27, 91, 91, 54, 126], "pageDown"),
  -- Shift+arrow
  ([27, 91, 97], "shift+up"), ([27, 91, 98], "shift+down"),
  ([27, 91, 99], "shift+right"), ([27, 91, 100], "shift+left"),
  -- Ctrl+arrow
  ([27, 79, 97], "ctrl+up"), ([27, 79, 98], "ctrl+down"),
  ([27, 79, 99], "ctrl+right"), ([27, 79, 100], "ctrl+left"),
  -- Shift+page/home/end
  ([27, 91, 53, 36], "shift+pageUp"), ([27, 91, 54, 36], "shift+pageDown"),
  ([27, 91, 55, 36], "shift+home"), ([27, 91, 56, 36], "shift+end"),
  -- Ctrl+page/home/end
  ([27, 91, 53, 94], "ctrl+pageUp"), ([27, 91, 54, 94], "ctrl+pageDown"),
  ([27, 91, 55, 94], "ctrl+home"), ([27, 91, 56, 94], "ctrl+end"),
  -- Function keys (SS3, CSI tilde, Linux console)
  ([27, 79, 80], "f1"), ([27, 79, 81], "f2"),
  ([27, 79, 82], "f3"), ([27, 79, 83], "f4"),
  ([27, 91, 49, 49, 126], "f1"), ([27, 91, 49, 50, 126], "f2"),
  ([27, 91, 49, 51, 126], "f3"), ([27, 91, 49, 52, 126], "f4"),
  ([27, 91, 91, 65], "f1"), ([27, 91, 91, 66], "f2"),
  ([27, 91, 91, 67], "f3"), ([27, 91, 91, 68], "f4"),
  ([27, 91, 91, 69], "f5"),
  ([27, 91, 49, 53, 126], "f5"), ([27, 91, 49, 55, 126], "f6"),
  ([27, 91, 49, 56, 126], "f7"), ([27, 91, 49, 57, 126], "f8"),
  ([27, 91, 50, 48, 126], "f9"), ([27, 91, 50, 49, 126], "f10"),
  ([27, 91, 50, 51, 126], "f11"), ([27, 91, 50, 52, 126], "f12"),
  -- Alt+arrow (legacy)
  ([27, 98], "alt+left"), ([27, 102], "alt+right"),
  ([27, 112], "alt+up"), ([27, 110], "alt+down")]

/-- `LEGACY_SEQUENCES.get(bytes)`. -/
def legacyGet (bytes : List Nat) : Option String :=
  (LEGACY_SEQUENCES.find? (fun p => p.1 == bytes)).map (·.2)

/-- `matches_legacy_sequence` (keys.rs lines 203-208). -/
def matches_legacy_sequence (bytes : List Nat) (key_name : String) : Bool :=
  match legacyGet bytes with
  | some id => id == key_name
  | none => false

/-- `matches_legacy_key` (keys.rs lines 709-711). -/
def matches_legacy_key (bytes : List Nat) (key : String) : Bool :=
  match legacyGet bytes with
  | some id => id == key
  | none => false

/-- The shift table of `matches_legacy_modifier_sequence`
(keys.rs lines 715-734). -/
def legacyShiftName (key : String) : Option String :=
  match key with
  | "up" => some "shift+up"
  | "down" => some "shift+down"
  | "right" => some "shift+right"
  | "left" => some "shift+left"
  | "clear" => some "shift+clear"
  | "insert" => some "shift+insert"
  | "delete" => some "shift+delete"
  | "pageUp" => some "shift+pageUp"
  | "pageDown" => some "shift+pageDown"
  | "home" => some "shift+home"
  | "end" => some "shift+end"
  | _ => none

/-- The ctrl table of `matches_legacy_modifier_sequence`
(keys.rs lines 735-755). -/
def legacyCtrlName (key : String) : Option String :=
  match key with
  | "up" => some "ctrl+up"
  | "down" => some "ctrl+down"
  | "right" => some "ctrl+right"
  | "left" => some "ctrl+left"
  | "clear" => some "ctrl+clear"
  | "insert" => some "ctrl+insert"
  | "delete" => some "ctrl+delete"
  | "pageUp" => some "ctrl+pageUp"
  | "pageDown" => some "ctrl+pageDown"
  | "home" => some "ctrl+home"
  | "end" => some "ctrl+end"
  | _ => none

/-- `matches_legacy_modifier_sequence` (keys.rs lines 714-757). -/
def matches_legacy_modifier_sequence (bytes : List Nat) (key : String)
    (modifier : Nat) : Bool :=
  if modifier == MOD_SHIFT then
    match legacyShiftName key with
    | some expected => matches_legacy_key bytes expected
    | none => false
  else if modifier == MOD_CTRL then
    match legacyCtrlName key with
    | some expected => matches_legacy_key bytes expected
    | none => false
  else false

-- =============================================================================
-- Formatting (keys.rs lines 1073-1145)
-- =============================================================================

/-- The constant match arms of `format_key_name` (keys.rs lines 1089-1119),
as a first-match table.  Every constant lies outside 33..=126, so arm order
against the two range arms below is immaterial, exactly as in the source
match. -/
def namedCodepointTable : List (Int × String) :=
  [(CP_ESCAPE, "escape"), (CP_TAB, "tab"), (CP_ENTER, "enter"),
   (CP_KP_ENTER, "enter"), (CP_SPACE, "space"), (CP_BACKSPACE, "backspace"),
   (FUNC_DELETE, "delete"), (FUNC_INSERT, "insert"), (FUNC_HOME, "home"),
   (FUNC_END, "end"), (FUNC_PAGE_UP, "pageUp"), (FUNC_PAGE_DOWN, "pageDown"),
   (FUNC_CLEAR, "clear"), (ARROW_UP, "up"), (ARROW_DOWN, "down"),
   (ARROW_LEFT, "left"), (ARROW_RIGHT, "right"), (FUNC_F1, "f1"),
   (FUNC_F2, "f2"), (FUNC_F3, "f3"), (FUNC_F4, "f4"), (FUNC_F5, "f5"),
   (FUNC_F6, "f6"), (FUNC_F7, "f7"), (FUNC_F8, "f8"), (FUNC_F9, "f9"),
   (FUNC_F10, "f10"), (FUNC_F11, "f11"), (FUNC_F12, "f12")]

/-- `format_key_name` (keys.rs lines 1087-1129): named sentinel and control
codepoints map to fixed names, printable ASCII to the literal character. -/
def format_key_name (codepoint : Int) : Option String :=
  match (namedCodepointTable.find? (fun p => p.1 == codepoint)).map (·.2) with
  | some key_name => some key_name
  | none =>
    if 33 ≤ codepoint && codepoint ≤ 126 then
      some (ascii_printable codepoint.toNat)
    else if 97 ≤ codepoint && codepoint ≤ 122 then
      some (letter_string codepoint.toNat)
    else none

/-- `format_with_mods` (keys.rs lines 1132-1145): prefixes are pushed in the
fixed order shift, ctrl, alt. -/
def format_with_mods (mods : Nat) (key_name : String) : String :=
  (if mods &&& MOD_SHIFT != 0 then "shift+" else "") ++
    ((if mods &&& MOD_CTRL != 0 then "ctrl+" else "") ++
      ((if mods &&& MOD_ALT != 0 then "alt+" else "") ++ key_name))

/-- `format_kitty_key` (keys.rs lines 1073-1084). -/
def format_kitty_key (p : ParsedKittySequence) : Option String :=
  let effective_mod := p.modifier &&& NOT_LOCK_MASK
  let effective_codepoint := p.base_layout_key.getD p.codepoint
  if effective_mod == 0 then format_key_name effective_codepoint
  else (format_key_name effective_codepoint).map (format_with_mods effective_mod)

-- =============================================================================
-- Single byte / ESC pair decoding (keys.rs lines 809-854)
-- =============================================================================

/-- `parse_single_byte` (keys.rs lines 810-827). -/
def parse_single_byte (code : Nat) : Option String :=
  if code == 27 then some "escape"
  else if code == 9 then some "tab"
  else if code == 13 || code == 10 then some "enter"
  else if code == 0 then some "ctrl+space"
  else if code == 32 then some "space"
  else if code == 127 || code == 8 then some "backspace"
  else if code == 28 then some "ctrl+\\"
  else if code == 29 then some "ctrl+]"
  else if code == 30 then some "ctrl+^"
  else if code == 31 then some "ctrl+_"
  else if 1 ≤ code && code ≤ 26 then some (ctrl_letter_string code)
  else if 97 ≤ code && code ≤ 122 then some (letter_string code)
  else if 33 ≤ code && code ≤ 126 then some (ascii_printable code)
  else none

/-- `parse_esc_pair` (keys.rs lines 830-854). -/
def parse_esc_pair (code : Nat) (kitty_protocol_active : Bool) : Option String :=
  if code == 127 || code == 8 then some "alt+backspace"
  else if code == 13 then some "alt+enter"
  else if code == 9 then some "alt+tab"
  else if !kitty_protocol_active then
    if code == 32 then some "alt+space"
    else if code == 66 then some "alt+left"
    else if code == 70 then some "alt+right"
    else if 1 ≤ code && code ≤ 26 then some (ctrl_alt_letter_string code)
    else if 97 ≤ code && code ≤ 122 then some (alt_letter_string code)
    else none
  else none

-- =============================================================================
-- Key specification parsing (keys.rs lines 232-309)
-- =============================================================================

/-- `ParsedKeyId` (keys.rs lines 232-237). -/
structure ParsedKeyId where
  key : String
  ctrl : Bool
  shift : Bool
  alt : Bool
deriving Repr, DecidableEq

/-- ASCII lowercase of a character (`u8::to_ascii_lowercase`). -/
def toLowerChar (c : Char) : Char :=
  if 65 ≤ c.toNat && c.toNat ≤ 90 then Char.ofNat (c.toNat + 32) else c

/-- `str::eq_ignore_ascii_case` on character lists. -/
def eqIgnoreAsciiCaseL (a b : List Char) : Bool :=
  a.map toLowerChar == b.map toLowerChar

/-- `str::eq_ignore_ascii_case` on strings. -/
def eq_ignore_ascii_case (a b : String) : Bool :=
  eqIgnoreAsciiCaseL a.data b.data

/-- `char::is_whitespace` restricted to the whitespace that can occur in a
key specification (`str::trim`). -/
def isSpaceChar (c : Char) : Bool :=
  c == ' ' || c == '\t' || c == '\n' || c == '\r'

/-- `str::trim` on character lists. -/
def trimChars (l : List Char) : List Char :=
  ((l.dropWhile isSpaceChar).reverse.dropWhile isSpaceChar).reverse

/-- `str::split('+')`: splitting on `'+'`, where the empty string yields one
empty part. -/
def splitPlus : List Char → List (List Char)
  | [] => [[]]
  | c :: cs =>
    let r := splitPlus cs
    if c == '+' then [] :: r
    else
      match r with
      | [] => [[c]]
      | h :: t => (c :: h) :: t

/-- The modifier-collecting loop of `parse_key_id` (keys.rs lines 260-280):
modifier names set their flag wherever they appear; the last non-modifier
part becomes the key. -/
def keyIdLoop : List (List Char) → Bool → Bool → Bool → Option (List Char) →
    Bool × Bool × Bool × Option (List Char)
  | [], ctrl, shift, alt, key => (ctrl, shift, alt, key)
  | part :: rest, ctrl, shift, alt, key =>
    let p := trimChars part
    if p.isEmpty then keyIdLoop rest ctrl shift alt key
    else if eqIgnoreAsciiCaseL p "ctrl".data ||
        eqIgnoreAsciiCaseL p "control".data then
      keyIdLoop rest true shift alt key
    else if eqIgnoreAsciiCaseL p "shift".data then
      keyIdLoop rest ctrl true alt key
    else if eqIgnoreAsciiCaseL p "alt".data ||
        eqIgnoreAsciiCaseL p "option".data then
      keyIdLoop rest ctrl shift true key
    else keyIdLoop rest ctrl shift alt (some p)

/-- `parse_key_id` (keys.rs lines 239-291). -/
def parse_key_id (key_id : String) : Option ParsedKeyId :=
  let s := trimChars key_id.data
  if s.isEmpty then none
  else
    -- Support plus key as "++" or "ctrl++" etc.
    let pf : List Char × Bool :=
      if s == ['+'] then ([], true)
      else if (s.reverse.take 2) == ['+', '+'] then
        (s.take (s.length - 2), true)
      else (s, false)
    let init : Option (List Char) := if pf.2 then some ['+'] else none
    match keyIdLoop (splitPlus pf.1) false false false init with
    | (ctrl, shift, alt, some k) =>
      let k :=
        if eqIgnoreAsciiCaseL k "plus".data then ['+']
        else if eqIgnoreAsciiCaseL k "esc".data then "esc".data
        else k
      some ⟨String.mk k, ctrl, shift, alt⟩
    | (_, _, _, none) => none

-- =============================================================================
-- Key matching (keys.rs lines 293-706)
-- =============================================================================

/-- ASCII lowercase on a byte. -/
def toLowerByte (b : Nat) : Nat :=
  if 65 ≤ b && b ≤ 90 then b + 32 else b

/-- `raw_ctrl_char` (keys.rs lines 293-296). -/
def raw_ctrl_char (letter : Nat) : Nat := toLowerByte letter - 97 + 1

/-- `ctrl_symbol_to_byte` (keys.rs lines 299-309). -/
def ctrl_symbol_to_byte (symbol : Nat) : Option Nat :=
  if symbol == 64 then some 0
  else if symbol == 91 then some 27
  else if symbol == 92 then some 28
  else if symbol == 93 then some 29
  else if symbol == 94 then some 30
  else if symbol == 95 || symbol == 45 then some 31
  else none

/-- The `kitty_matches` closure of `matches_key_inner` (keys.rs
lines 379-389), over the Kitty parse computed once. -/
def kittyMatchesWith (kp : Option ParsedKittySequence) (codepoint : Int)
    (m : Nat) : Bool :=
  match kp with
  | none => false
  | some p =>
    (p.modifier &&& NOT_LOCK_MASK == m &&& NOT_LOCK_MASK) &&
      (p.codepoint == codepoint || p.base_layout_key == some codepoint)

/-- The `mok_matches` closure of `matches_key_inner` (keys.rs
lines 393-394), over the modifyOtherKeys parse computed once. -/
def mokMatchesWith (mok : Option (Nat × Int)) (keycode : Int) (m : Nat) :
    Bool :=
  match mok with
  | none => false
  | some (mm, kk) => kk == keycode && mm == m

/-- The function-key table of `matches_key_inner` (keys.rs lines 602-628). -/
def fKeyCode (key : String) : Option Int :=
  if eq_ignore_ascii_case key "f1" then some FUNC_F1
  else if eq_ignore_ascii_case key "f2" then some FUNC_F2
  else if eq_ignore_ascii_case key "f3" then some FUNC_F3
  else if eq_ignore_ascii_case key "f4" then some FUNC_F4
  else if eq_ignore_ascii_case key "f5" then some FUNC_F5
  else if eq_ignore_ascii_case key "f6" then some FUNC_F6
  else if eq_ignore_ascii_case key "f7" then some FUNC_F7
  else if eq_ignore_ascii_case key "f8" then some FUNC_F8
  else if eq_ignore_ascii_case key "f9" then some FUNC_F9
  else if eq_ignore_ascii_case key "f10" then some FUNC_F10
  else if eq_ignore_ascii_case key "f11" then some FUNC_F11
  else if eq_ignore_ascii_case key "f12" then some FUNC_F12
  else none

/-- The single-printable-character block of `matches_key_inner`
(keys.rs lines 637-703).  Rust checks byte-length one; a single non-ASCII
character fails there just as it fails the `is_ascii_graphic` check here. -/
def matchesSingleChar (bytes : List Nat) (c0 : Char) (ctrl shift alt : Bool)
    (modifier : Nat) (kitty_protocol_active : Bool)
    (kp : Option ParsedKittySequence) (mok : Option (Nat × Int)) : Bool :=
  let ch := toLowerByte c0.toNat
  if !(33 ≤ ch && ch ≤ 126) then false
  else
    let codepoint : Int := Int.ofNat ch
    let is_letter := 97 ≤ ch && ch ≤ 122
    -- ctrl+alt+letter in legacy mode
    if ctrl && alt && !shift && !kitty_protocol_active && is_letter then
      bytes == [27, raw_ctrl_char ch]
    -- alt+letter in legacy mode
    else if alt && !ctrl && !shift && !kitty_protocol_active && is_letter then
      bytes == [27, ch]
    -- ctrl+key
    else if ctrl && !shift && !alt then
      if is_letter then
        bytes == [raw_ctrl_char ch] ||
          mokMatchesWith mok codepoint MOD_CTRL ||
          kittyMatchesWith kp codepoint MOD_CTRL
      else
        (match ctrl_symbol_to_byte ch with
         | some legacy_ctrl => bytes == [legacy_ctrl]
         | none => false) ||
          mokMatchesWith mok codepoint MOD_CTRL ||
          kittyMatchesWith kp codepoint MOD_CTRL
    -- ctrl+shift
    else if ctrl && shift && !alt then
      kittyMatchesWith kp codepoint (MOD_SHIFT + MOD_CTRL) ||
        mokMatchesWith mok codepoint (MOD_SHIFT + MOD_CTRL)
    -- shift+key (letters can match uppercase in plain legacy mode)
    else if shift && !ctrl && !alt then
      (is_letter && bytes == [ch - 32]) ||
        kittyMatchesWith kp codepoint MOD_SHIFT ||
        mokMatchesWith mok codepoint MOD_SHIFT
    -- other modifier combinations
    else if modifier != 0 then
      kittyMatchesWith kp codepoint modifier ||
        mokMatchesWith mok codepoint modifier
    -- plain key
    else bytes == [ch] || kittyMatchesWith kp codepoint 0

/-- The branch body of `matches_key_inner` (keys.rs lines 356-706), after
the Kitty and modifyOtherKeys decodes have been computed once. -/
def matchesKeyCore (bytes : List Nat) (pid : ParsedKeyId)
    (kitty_protocol_active : Bool) (kp : Option ParsedKittySequence)
    (mok : Option (Nat × Int)) : Bool :=
  let ctrl := pid.ctrl
  let shift := pid.shift
  let alt := pid.alt
  let key := pid.key
  let modifier : Nat := (if shift then MOD_SHIFT else 0) |||
    (if alt then MOD_ALT else 0) ||| (if ctrl then MOD_CTRL else 0)
  let km := kittyMatchesWith kp
  let mm := mokMatchesWith mok
  -- Named keys (case-insensitive)
  if eq_ignore_ascii_case key "escape" || eq_ignore_ascii_case key "esc" then
    if modifier != 0 then false
    else bytes == [27] || km CP_ESCAPE 0
  else if eq_ignore_ascii_case key "space" then
    -- legacy ctrl+space
    if !alt && ctrl && !shift && bytes == [0] then true
    -- legacy alt+space (only reliable when not disambiguated)
    else if !ctrl && alt && !shift && !kitty_protocol_active &&
        bytes == [27, 32] then true
    else if modifier == 0 then bytes == [32] || km CP_SPACE 0
    else km CP_SPACE modifier || mm CP_SPACE modifier
  else if eq_ignore_ascii_case key "tab" then
    -- shift+tab classic
    if shift && !ctrl && !alt then
      bytes == [27, 91, 90] || km CP_TAB MOD_SHIFT || mm CP_TAB MOD_SHIFT
    -- alt+tab stays ESC+TAB (Tab is an exception)
    else if alt && !ctrl && !shift && bytes == [27, 9] then true
    -- plain tab
    else if modifier == 0 then bytes == [9] || km CP_TAB 0
    -- ctrl+tab etc only in enhanced modes
    else km CP_TAB modifier || mm CP_TAB modifier
  else if eq_ignore_ascii_case key "enter" || eq_ignore_ascii_case key "return" then
    -- alt+enter is commonly ESC + CR (Enter is an exception)
    if alt && !ctrl && !shift && bytes == [27, 13] then true
    -- unmodified enter
    else if modifier == 0 then
      bytes == [13] || bytes == [10] || bytes == [27, 79, 77] ||
        km CP_ENTER 0 || km CP_KP_ENTER 0
    -- modified enter only when encoded
    else
      km CP_ENTER modifier || km CP_KP_ENTER modifier ||
        mm CP_ENTER modifier || mm CP_KP_ENTER modifier
  else if eq_ignore_ascii_case key "backspace" then
    -- alt+backspace is commonly ESC + (DEL or BS) (Backspace is an exception)
    if alt && !ctrl && !shift then
      bytes == [27, 127] || bytes == [27, 8] ||
        km CP_BACKSPACE MOD_ALT || mm CP_BACKSPACE MOD_ALT
    else if modifier == 0 then
      bytes == [127] || bytes == [8] || km CP_BACKSPACE 0
    else km CP_BACKSPACE modifier || mm CP_BACKSPACE modifier
  else if eq_ignore_ascii_case key "insert" then
    if modifier == 0 then
      matches_legacy_key bytes "insert" || km FUNC_INSERT 0
    else
      matches_legacy_modifier_sequence bytes "insert" modifier ||
        km FUNC_INSERT modifier
  else if eq_ignore_ascii_case key "delete" then
    if modifier == 0 then
      matches_legacy_key bytes "delete" || km FUNC_DELETE 0
    else
      matches_legacy_modifier_sequence bytes "delete" modifier ||
        km FUNC_DELETE modifier
  else if eq_ignore_ascii_case key "clear" then
    if modifier == 0 then
      matches_legacy_key bytes "clear" || km FUNC_CLEAR 0
    else
      matches_legacy_modifier_sequence bytes "clear" modifier ||
        km FUNC_CLEAR modifier
  else if eq_ignore_ascii_case key "home" then
    if modifier == 0 then
      matches_legacy_key bytes "home" || km FUNC_HOME 0
    else
      matches_legacy_modifier_sequence bytes "home" modifier ||
        km FUNC_HOME modifier
  else if eq_ignore_ascii_case key "end" then
    if modifier == 0 then
      matches_legacy_key bytes "end" || km FUNC_END 0
    else
      matches_legacy_modifier_sequence bytes "end" modifier ||
        km FUNC_END modifier
  else if eq_ignore_ascii_case key "pageup" then
    if modifier == 0 then
      matches_legacy_key bytes "pageUp" || km FUNC_PAGE_UP 0
    else
      matches_legacy_modifier_sequence bytes "pageUp" modifier ||
        km FUNC_PAGE_UP modifier
  else if eq_ignore_ascii_case key "pagedown" then
    if modifier == 0 then
      matches_legacy_key bytes "pageDown" || km FUNC_PAGE_DOWN 0
    else
      matches_legacy_modifier_sequence bytes "pageDown" modifier ||
        km FUNC_PAGE_DOWN modifier
  else if eq_ignore_ascii_case key "up" then
    if alt && !ctrl && !shift then
      bytes == [27, 112] || km ARROW_UP MOD_ALT
    else if modifier == 0 then
      matches_legacy_key bytes "up" || km ARROW_UP 0
    else
      matches_legacy_modifier_sequence bytes "up" modifier ||
        km ARROW_UP modifier
  else if eq_ignore_ascii_case key "down" then
    if alt && !ctrl && !shift then
      bytes == [27, 110] || km ARROW_DOWN MOD_ALT
    else if modifier == 0 then
      matches_legacy_key bytes "down" || km ARROW_DOWN 0
    else
      matches_legacy_modifier_sequence bytes "down" modifier ||
        km ARROW_DOWN modifier
  else if eq_ignore_ascii_case key "left" then
    if alt && !ctrl && !shift then
      bytes == [27, 91, 49, 59, 51, 68] ||
        (!kitty_protocol_active && bytes == [27, 66]) ||
        bytes == [27, 98] || km ARROW_LEFT MOD_ALT
    else if ctrl && !alt && !shift then
      bytes == [27, 91, 49, 59, 53, 68] ||
        matches_legacy_modifier_sequence bytes "left" MOD_CTRL ||
        km ARROW_LEFT MOD_CTRL
    else if modifier == 0 then
      matches_legacy_key bytes "left" || km ARROW_LEFT 0
    else
      matches_legacy_modifier_sequence bytes "left" modifier ||
        km ARROW_LEFT modifier
  else if eq_ignore_ascii_case key "right" then
    if alt && !ctrl && !shift then
      bytes == [27, 91, 49, 59, 51, 67] ||
        (!kitty_protocol_active && bytes == [27, 70]) ||
        bytes == [27, 102] || km ARROW_RIGHT MOD_ALT
    else if ctrl && !alt && !shift then
      bytes == [27, 91, 49, 59, 53, 67] ||
        matches_legacy_modifier_sequence bytes "right" MOD_CTRL ||
        km ARROW_RIGHT MOD_CTRL
    else if modifier == 0 then
      matches_legacy_key bytes "right" || km ARROW_RIGHT 0
    else
      matches_legacy_modifier_sequence bytes "right" modifier ||
        km ARROW_RIGHT modifier
  else
    match fKeyCode key with
    | some cp =>
      if modifier == 0 then matches_legacy_key bytes key
      else km cp modifier
    | none =>
      -- Single-character keys: any ASCII graphic char (0x21..=0x7E)
      match key.data with
      | [c0] =>
        matchesSingleChar bytes c0 ctrl shift alt modifier
          kitty_protocol_active kp mok
      | _ => false

/-- `matches_key_inner` (keys.rs lines 356-706): parse the key spec, decode
the byte slice once per protocol, then evaluate the rule table. -/
def matches_key_innerE (bytes : List Nat) (key_id : String)
    (kitty_protocol_active : Bool) : Except Unit Bool :=
  match parse_key_id key_id with
  | none => .ok false
  | some pid =>
    match parse_kitty_sequenceE bytes with
    | .error e => .error e
    | .ok kp =>
      match parse_modify_other_keysE bytes with
      | .error e => .error e
      | .ok mok => .ok (matchesKeyCore bytes pid kitty_protocol_active kp mok)

-- =============================================================================
-- Core parsing (keys.rs lines 763-807) and exported operations
-- =============================================================================

/-- `parse_key_inner` (keys.rs lines 764-807). -/
def parse_key_innerE (bytes : List Nat) (kitty_protocol_active : Bool) :
    Except Unit (Option String) :=
  -- Fast path: single byte
  if bytes.length == 1 then
    match getByte bytes 0 with
    | .error e => .error e
    | .ok b => .ok (parse_single_byte b)
  -- All escape sequences start with ESC
  else if bytes.head? != some 27 then .ok none
  else
    match legacyGet bytes with
    | some key_id => .ok (some key_id)
    | none =>
      -- xterm modifyOtherKeys
      match parse_modify_other_keysE bytes with
      | .error e => .error e
      | .ok (some (mods, keycode)) =>
        (match format_key_name keycode with
         | none => .ok none
         | some key_name =>
           if mods == 0 then .ok (some key_name)
           else .ok (some (format_with_mods (mods &&& NOT_LOCK_MASK) key_name)))
      | .ok none =>
        -- Kitty protocol sequences
        match parse_kitty_sequenceE bytes with
        | .error e => .error e
        | .ok (some parsed) => .ok (format_kitty_key parsed)
        | .ok none =>
          -- Two-byte ESC sequences (legacy ALT prefix)
          if bytes.length == 2 then
            match getByte bytes 1 with
            | .error e => .error e
            | .ok c => .ok (parse_esc_pair c kitty_protocol_active)
          -- Fixed CSI / SS3 sequences not covered by LEGACY_SEQUENCES
          else if bytes == [27, 91, 90] then .ok (some "shift+tab")
          else if bytes == [27, 79, 77] then .ok (some "enter")
          else .ok none

/-- Exported `parse_key` (keys.rs lines 197-200), panic-instrumented. -/
def parse_keyE (bytes : List Nat) (kitty_protocol_active : Bool) :
    Except Unit (Option String) :=
  parse_key_innerE bytes kitty_protocol_active

/-- Exported `parse_key`, with the (provably unreachable) panic branch
collapsed to `none`. -/
def parse_key (bytes : List Nat) (kitty_protocol_active : Bool) :
    Option String :=
  match parse_keyE bytes kitty_protocol_active with
  | .ok r => r
  | .error _ => none

/-- Exported `matches_key` (keys.rs lines 211-214), panic-instrumented. -/
def matches_keyE (bytes : List Nat) (key_id : String)
    (kitty_protocol_active : Bool) : Except Unit Bool :=
  matches_key_innerE bytes key_id kitty_protocol_active

/-- Exported `matches_key`, with the (provably unreachable) panic branch
collapsed to `false`. -/
def matches_key (bytes : List Nat) (key_id : String)
    (kitty_protocol_active : Bool) : Bool :=
  match matches_keyE bytes key_id kitty_protocol_active with
  | .ok r => r
  | .error _ => false

/-- Exported `matches_kitty_sequence` (keys.rs lines 177-194),
panic-instrumented. -/
def matches_kitty_sequenceE (bytes : List Nat) (expected_codepoint : Int)
    (expected_modifier : Nat) : Except Unit Bool :=
  match parse_kitty_sequenceE bytes with
  | .error e => .error e
  | .ok none => .ok false
  | .ok (some p) =>
    .ok ((p.modifier &&& NOT_LOCK_MASK == expected_modifier &&& NOT_LOCK_MASK) &&
      (p.codepoint == expected_codepoint ||
        p.base_layout_key == some expected_codepoint))

/-- Exported `matches_kitty_sequence`, with the (provably unreachable)
panic branch collapsed to `false`. -/
def matches_kitty_sequence (bytes : List Nat) (expected_codepoint : Int)
    (expected_modifier : Nat) : Bool :=
  match matches_kitty_sequenceE bytes expected_codepoint expected_modifier with
  | .ok r => r
  | .error _ => false

/-- Exported `matches_legacy_sequence` (keys.rs lines 203-208) in the panic
monad: a pure map lookup, it cannot panic. -/
def matches_legacy_sequenceE (bytes : List Nat) (key_name : String) :
    Except Unit Bool :=
  .ok (matches_legacy_sequence bytes key_name)

/-- Exported `parse_kitty_sequence` (keys.rs lines 217-226), with the
(provably unreachable) panic branch collapsed to `none`. -/
def parse_kitty_sequence (bytes : List Nat) : Option ParsedKittySequence :=
  match parse_kitty_sequenceE bytes with
  | .ok r => r
  | .error _ => none

/-- `parse_modify_other_keys` with the (provably unreachable) panic branch
collapsed to `none`. -/
def parse_modify_other_keys (bytes : List Nat) : Option (Nat × Int) :=
  match parse_modify_other_keysE bytes with
  | .ok r => r
  | .error _ => none

-- =============================================================================
-- Canonical key name grammar (spec section 3 "Canonical Key Name")
-- =============================================================================

/-- Strip a leading `shift+` if present. -/
def stripShift (l : List Char) : List Char :=
  if "shift+".data.isPrefixOf l then l.drop 6 else l

/-- Strip a leading `ctrl+` if present. -/
def stripCtrl (l : List Char) : List Char :=
  if "ctrl+".data.isPrefixOf l then l.drop 5 else l

/-- Strip a leading `alt+` if present. -/
def stripAlt (l : List Char) : List Char :=
  if "alt+".data.isPrefixOf l then l.drop 4 else l

/-- Key token check: a single printable-ASCII character or a member of the
given closed set of named keys. -/
def isTokChars (named : List (List Char)) (l : List Char) : Bool :=
  match l with
  | [c] => 33 ≤ c.toNat && c.toNat ≤ 126
  | _ => named.contains l

/-- Modelled from the spec: the closed set of named keys of the claimed
canonical key-name grammar, exactly as the spec lists them (all lowercase,
including `pageup` and `pagedown`). -/
def namedKeysSpec : List (List Char) :=
  ["escape".data, "tab".data, "enter".data, "space".data, "backspace".data,
   "insert".data, "delete".data, "home".data, "end".data, "pageup".data,
   "pagedown".data, "clear".data, "up".data, "down".data, "left".data,
   "right".data, "f1".data, "f2".data, "f3".data, "f4".data, "f5".data,
   "f6".data, "f7".data, "f8".data, "f9".data, "f10".data, "f11".data,
   "f12".data]

/-- The named keys the code actually produces: as the spec's set, except that
Page Up / Page Down are rendered `pageUp` / `pageDown` (see
`LEGACY_SEQUENCES` and `format_key_name`). -/
def namedKeysCode : List (List Char) :=
  ["escape".data, "tab".data, "enter".data, "space".data, "backspace".data,
   "insert".data, "delete".data, "home".data, "end".data, "pageUp".data,
   "pageDown".data, "clear".data, "up".data, "down".data, "left".data,
   "right".data, "f1".data, "f2".data, "f3".data, "f4".data, "f5".data,
   "f6".data, "f7".data, "f8".data, "f9".data, "f10".data, "f11".data,
   "f12".data]

/-- Canonical-name check on a character list: optional `shift+`, `ctrl+`,
`alt+` prefixes in that fixed order, then a key token from the given set. -/
def canonChars (named : List (List Char)) (l : List Char) : Bool :=
  isTokChars named (stripAlt (stripCtrl (stripShift l)))

/-- Modelled from the spec: the claimed canonical key-name grammar — an
optional prefix drawn from `shift+`, `ctrl+`, `alt+` in that fixed order,
followed by a single printable-ASCII character or a named key from the
spec's all-lowercase closed set. -/
def is_spec_canonical_key_name (s : String) : Bool :=
  canonChars namedKeysSpec s.data

/-- The canonical key-name grammar the code satisfies: the same shape, with
the named-key set as produced by the code (`pageUp` / `pageDown` camelCase,
single printable-ASCII characters of either case). -/
def is_canonical_key_name (s : String) : Bool :=
  canonChars namedKeysCode s.data

/-- The key-token check at the string level. -/
def isTokStr (s : String) : Bool := isTokChars namedKeysCode s.data

/-- Normal (non-panicking) return in the panic monad. -/
def ExceptOk {α : Type} (e : Except Unit α) : Prop := ∃ v, e = .ok v

/-- The value of a decimal digit run as accumulated by `parse_digits`,
with the `u32` overflow check applied at every step. -/
def runVal (acc : Nat) : List Nat → Option Nat
  | [] => some acc
  | d :: ds =>
    let v := acc * 10 + (d - 48)
    if v < 4294967296 then runVal v ds else none

-- =============================================================================
-- Claim theorems
-- =============================================================================

/-- C1: evaluating the code at the claimed input: `matches_key` on the bytes
ESC [ 6 5 ; 5 u with key spec "ctrl+a" and `kitty_protocol_active = true`
returns `false`, not `true` as the claim states — the matcher lowercases the
spec's key to codepoint 97 and compares it against the decoded codepoint 65
with no case folding. -/
theorem C1_matches_key_csi_u_65_ctrl_a :
    matches_key [27, 91, 54, 53, 59, 53, 117] "ctrl+a" true = false := by
  decide

/-- C2: evaluating the code at the claimed input: `parse_key` on the bytes
ESC [ 6 5 ; 5 u returns `"ctrl+A"`, not `"ctrl+a"` as the claim (and the
source's own module doc example) states — `format_key_name` renders
codepoint 65 as the literal character `A`. -/
theorem C2_parse_key_csi_u_65 :
    parse_key [27, 91, 54, 53, 59, 53, 117] true = some "ctrl+A" := by
  decide

/-- C3 counterexample: `parse_key` on the legacy Page Up sequence
ESC [ 5 ~ returns `"pageUp"`, which is not produced by the claimed grammar
(lowercase named keys including `pageup`): the key token `pageUp` is neither
a single printable-ASCII character nor a member of the spec's closed set. -/
theorem C3_pageUp_counterexample :
    parse_key [27, 91, 53, 126] false = some "pageUp" ∧
      is_spec_canonical_key_name "pageUp" = false := by
  constructor
  · decide
  · decide

-- Canonical-shape lemmas (claim C3): every string the formatter paths can
-- produce matches the canonical grammar.

theorem isPrefixOf_append_self (p r : List Char) :
    p.isPrefixOf (p ++ r) = true := by
  induction p with
  | nil => simp [List.isPrefixOf]
  | cons c cs ih => simp [List.isPrefixOf, ih]

theorem isPrefixOf_cons_ne {a b : Char} (h : (a == b) = false)
    (p l : List Char) : (a :: p).isPrefixOf (b :: l) = false := by
  simp [List.isPrefixOf, h]

theorem isPrefixOf_long_singleton (a b : Char) (p : List Char) (c : Char) :
    (a :: b :: p).isPrefixOf [c] = false := by
  simp [List.isPrefixOf]

theorem stripShift_append (r : List Char) :
    stripShift ("shift+".data ++ r) = r := by
  unfold stripShift
  rw [if_pos (isPrefixOf_append_self _ _)]
  exact @List.drop_left' _ ("shift+".data) _ 6 (by decide)

theorem stripCtrl_append (r : List Char) :
    stripCtrl ("ctrl+".data ++ r) = r := by
  unfold stripCtrl
  rw [if_pos (isPrefixOf_append_self _ _)]
  exact @List.drop_left' _ ("ctrl+".data) _ 5 (by decide)

theorem stripAlt_append (r : List Char) :
    stripAlt ("alt+".data ++ r) = r := by
  unfold stripAlt
  rw [if_pos (isPrefixOf_append_self _ _)]
  exact @List.drop_left' _ ("alt+".data) _ 4 (by decide)

theorem stripShift_singleton (c : Char) : stripShift [c] = [c] := by
  unfold stripShift
  rw [if_neg]
  rw [show ("shift+".data) = 's' :: 'h' :: "ift+".data from rfl,
    isPrefixOf_long_singleton]
  simp

theorem stripCtrl_singleton (c : Char) : stripCtrl [c] = [c] := by
  unfold stripCtrl
  rw [if_neg]
  rw [show ("ctrl+".data) = 'c' :: 't' :: "rl+".data from rfl,
    isPrefixOf_long_singleton]
  simp

theorem stripAlt_singleton (c : Char) : stripAlt [c] = [c] := by
  unfold stripAlt
  rw [if_neg]
  rw [show ("alt+".data) = 'a' :: 'l' :: "t+".data from rfl,
    isPrefixOf_long_singleton]
  simp

theorem stripShift_ctrl (r : List Char) :
    stripShift ("ctrl+".data ++ r) = "ctrl+".data ++ r := by
  unfold stripShift
  rw [if_neg]
  rw [show ("shift+".data) = 's' :: "hift+".data from rfl,
    show ("ctrl+".data ++ r) = 'c' :: ("trl+".data ++ r) from rfl,
    isPrefixOf_cons_ne (by decide)]
  simp

theorem stripShift_alt (r : List Char) :
    stripShift ("alt+".data ++ r) = "alt+".data ++ r := by
  unfold stripShift
  rw [if_neg]
  rw [show ("shift+".data) = 's' :: "hift+".data from rfl,
    show ("alt+".data ++ r) = 'a' :: ("lt+".data ++ r) from rfl,
    isPrefixOf_cons_ne (by decide)]
  simp

theorem stripCtrl_alt (r : List Char) :
    stripCtrl ("alt+".data ++ r) = "alt+".data ++ r := by
  unfold stripCtrl
  rw [if_neg]
  rw [show ("ctrl+".data) = 'c' :: "trl+".data from rfl,
    show ("alt+".data ++ r) = 'a' :: ("lt+".data ++ r) from rfl,
    isPrefixOf_cons_ne (by decide)]
  simp

theorem tok_strips (l : List Char) (h : isTokChars namedKeysCode l = true) :
    stripShift l = l ∧ stripCtrl l = l ∧ stripAlt l = l := by
  match l with
  | [] => exact absurd h (by decide)
  | [c] =>
    exact ⟨stripShift_singleton c, stripCtrl_singleton c,
      stripAlt_singleton c⟩
  | c1 :: c2 :: rest =>
    simp only [isTokChars] at h
    have hm : (c1 :: c2 :: rest) ∈ namedKeysCode := by
      simpa using h
    simp only [namedKeysCode, List.mem_cons, List.not_mem_nil, or_false]
      at hm
    rcases hm with h2 | h2 | h2 | h2 | h2 | h2 | h2 | h2 | h2 | h2 | h2 |
      h2 | h2 | h2 | h2 | h2 | h2 | h2 | h2 | h2 | h2 | h2 | h2 | h2 |
      h2 | h2 | h2 | h2 <;>
      (rw [h2]; exact ⟨by decide, by decide, by decide⟩)

theorem tok_canon_str (s : String) (h : isTokStr s = true) :
    is_canonical_key_name s = true := by
  unfold is_canonical_key_name canonChars
  obtain ⟨h1, h2, h3⟩ := tok_strips s.data h
  rw [h1, h2, h3]
  exact h

theorem fwm_canon (m : Nat) (kn : String) (h : isTokStr kn = true) :
    is_canonical_key_name (format_with_mods m kn) = true := by
  unfold format_with_mods is_canonical_key_name canonChars
  obtain ⟨h1, h2, h3⟩ := tok_strips kn.data h
  have hde : ("" : String).data = [] := rfl
  by_cases hs : (m &&& MOD_SHIFT != 0) = true <;>
    by_cases hc : (m &&& MOD_CTRL != 0) = true <;>
    by_cases ha : (m &&& MOD_ALT != 0) = true
  · rw [if_pos hs, if_pos hc, if_pos ha]
    simp only [String.data_append]
    rw [stripShift_append, stripCtrl_append, stripAlt_append]
    exact h
  · rw [if_pos hs, if_pos hc, if_neg ha]
    simp only [String.data_append, hde, List.nil_append]
    rw [stripShift_append, stripCtrl_append, h3]
    exact h
  · rw [if_pos hs, if_neg hc, if_pos ha]
    simp only [String.data_append, hde, List.nil_append]
    rw [stripShift_append, stripCtrl_alt, stripAlt_append]
    exact h
  · rw [if_pos hs, if_neg hc, if_neg ha]
    simp only [String.data_append, hde, List.nil_append]
    rw [stripShift_append, h2, h3]
    exact h
  · rw [if_neg hs, if_pos hc, if_pos ha]
    simp only [String.data_append, hde, List.nil_append]
    rw [stripShift_ctrl, stripCtrl_append, stripAlt_append]
    exact h
  · rw [if_neg hs, if_pos hc, if_neg ha]
    simp only [String.data_append, hde, List.nil_append]
    rw [stripShift_ctrl, stripCtrl_append, h3]
    exact h
  · rw [if_neg hs, if_neg hc, if_pos ha]
    simp only [String.data_append, hde, List.nil_append]
    rw [stripShift_alt, stripCtrl_alt, stripAlt_append]
    exact h
  · rw [if_neg hs, if_neg hc, if_neg ha]
    simp only [String.data_append, hde, List.nil_append]
    rw [h1, h2, h3]
    exact h

theorem tok_printable : ∀ n, n < 127 → 33 ≤ n →
    isTokStr (ascii_printable n) = true := by
  decide

theorem tok_letter : ∀ n, n < 123 → 97 ≤ n →
    isTokStr (letter_string n) = true := by
  decide

theorem canon_printable : ∀ n, n < 127 → 33 ≤ n →
    is_canonical_key_name (ascii_printable n) = true := by
  decide

theorem canon_letter : ∀ n, n < 123 → 97 ≤ n →
    is_canonical_key_name (letter_string n) = true := by
  decide

theorem canon_ctrl_letter : ∀ n, n < 27 → 1 ≤ n →
    is_canonical_key_name (ctrl_letter_string n) = true := by
  decide

theorem canon_alt_letter : ∀ n, n < 123 → 97 ≤ n →
    is_canonical_key_name (alt_letter_string n) = true := by
  decide

theorem canon_ctrl_alt_letter : ∀ n, n < 27 → 1 ≤ n →
    is_canonical_key_name (ctrl_alt_letter_string n) = true := by
  decide

theorem namedCodepointTable_tok :
    (namedCodepointTable.all fun p => isTokStr p.2) = true := by
  decide

theorem format_key_name_tok (cp : Int) (k : String)
    (h : format_key_name cp = some k) : isTokStr k = true := by
  unfold format_key_name at h
  cases hf : namedCodepointTable.find? (fun p => p.1 == cp) with
  | some p =>
    rw [hf] at h
    simp only [Option.map_some'] at h
    have hmem : p ∈ namedCodepointTable := List.mem_of_find?_eq_some hf
    have hc := List.all_eq_true.mp namedCodepointTable_tok p hmem
    rw [← Option.some.inj h]
    exact hc
  | none =>
    rw [hf] at h
    simp only [Option.map_none'] at h
    split at h
    · rename_i e
      simp only [Bool.and_eq_true, decide_eq_true_eq] at e
      rw [← Option.some.inj h]
      exact tok_printable cp.toNat (by omega) (by omega)
    · split at h
      · rename_i e
        simp only [Bool.and_eq_true, decide_eq_true_eq] at e
        rw [← Option.some.inj h]
        exact tok_letter cp.toNat (by omega) (by omega)
      · simp at h

theorem parse_single_byte_canon (b : Nat) (s : String)
    (h : parse_single_byte b = some s) : is_canonical_key_name s = true := by
  unfold parse_single_byte at h
  by_cases e1 : (b == 27) = true
  · rw [if_pos e1] at h
    rw [← Option.some.inj h]
    decide
  rw [if_neg e1] at h
  by_cases e2 : (b == 9) = true
  · rw [if_pos e2] at h
    rw [← Option.some.inj h]
    decide
  rw [if_neg e2] at h
  by_cases e3 : (b == 13 || b == 10) = true
  · rw [if_pos e3] at h
    rw [← Option.some.inj h]
    decide
  rw [if_neg e3] at h
  by_cases e4 : (b == 0) = true
  · rw [if_pos e4] at h
    rw [← Option.some.inj h]
    decide
  rw [if_neg e4] at h
  by_cases e5 : (b == 32) = true
  · rw [if_pos e5] at h
    rw [← Option.some.inj h]
    decide
  rw [if_neg e5] at h
  by_cases e6 : (b == 127 || b == 8) = true
  · rw [if_pos e6] at h
    rw [← Option.some.inj h]
    decide
  rw [if_neg e6] at h
  by_cases e7 : (b == 28) = true
  · rw [if_pos e7] at h
    rw [← Option.some.inj h]
    decide
  rw [if_neg e7] at h
  by_cases e8 : (b == 29) = true
  · rw [if_pos e8] at h
    rw [← Option.some.inj h]
    decide
  rw [if_neg e8] at h
  by_cases e9 : (b == 30) = true
  · rw [if_pos e9] at h
    rw [← Option.some.inj h]
    decide
  rw [if_neg e9] at h
  by_cases e10 : (b == 31) = true
  · rw [if_pos e10] at h
    rw [← Option.some.inj h]
    decide
  rw [if_neg e10] at h
  by_cases e11 : (decide (1 ≤ b) && decide (b ≤ 26)) = true
  · rw [if_pos e11] at h
    rw [← Option.some.inj h]
    simp only [Bool.and_eq_true, decide_eq_true_eq] at e11
    exact canon_ctrl_letter b (by omega) (by omega)
  rw [if_neg e11] at h
  by_cases e12 : (decide (97 ≤ b) && decide (b ≤ 122)) = true
  · rw [if_pos e12] at h
    rw [← Option.some.inj h]
    simp only [Bool.and_eq_true, decide_eq_true_eq] at e12
    exact canon_letter b (by omega) (by omega)
  rw [if_neg e12] at h
  by_cases e13 : (decide (33 ≤ b) && decide (b ≤ 126)) = true
  · rw [if_pos e13] at h
    rw [← Option.some.inj h]
    simp only [Bool.and_eq_true, decide_eq_true_eq] at e13
    exact canon_printable b (by omega) (by omega)
  rw [if_neg e13] at h
  simp at h

theorem parse_esc_pair_canon (code : Nat) (active : Bool) (s : String)
    (h : parse_esc_pair code active = some s) :
    is_canonical_key_name s = true := by
  unfold parse_esc_pair at h
  by_cases e1 : (code == 127 || code == 8) = true
  · rw [if_pos e1] at h
    rw [← Option.some.inj h]
    decide
  rw [if_neg e1] at h
  by_cases e2 : (code == 13) = true
  · rw [if_pos e2] at h
    rw [← Option.some.inj h]
    decide
  rw [if_neg e2] at h
  by_cases e3 : (code == 9) = true
  · rw [if_pos e3] at h
    rw [← Option.some.inj h]
    decide
  rw [if_neg e3] at h
  by_cases e4 : (!active) = true
  case neg =>
    rw [if_neg e4] at h
    simp at h
  rw [if_pos e4] at h
  by_cases e5 : (code == 32) = true
  · rw [if_pos e5] at h
    rw [← Option.some.inj h]
    decide
  rw [if_neg e5] at h
  by_cases e6 : (code == 66) = true
  · rw [if_pos e6] at h
    rw [← Option.some.inj h]
    decide
  rw [if_neg e6] at h
  by_cases e7 : (code == 70) = true
  · rw [if_pos e7] at h
    rw [← Option.some.inj h]
    decide
  rw [if_neg e7] at h
  by_cases e8 : (decide (1 ≤ code) && decide (code ≤ 26)) = true
  · rw [if_pos e8] at h
    rw [← Option.some.inj h]
    simp only [Bool.and_eq_true, decide_eq_true_eq] at e8
    exact canon_ctrl_alt_letter code (by omega) (by omega)
  rw [if_neg e8] at h
  by_cases e9 : (decide (97 ≤ code) && decide (code ≤ 122)) = true
  · rw [if_pos e9] at h
    rw [← Option.some.inj h]
    simp only [Bool.and_eq_true, decide_eq_true_eq] at e9
    exact canon_alt_letter code (by omega) (by omega)
  rw [if_neg e9] at h
  simp at h

theorem canon_legacy :
    (LEGACY_SEQUENCES.all fun p => is_canonical_key_name p.2) = true := by
  decide

theorem legacyGet_canon (bytes : List Nat) (k : String)
    (h : legacyGet bytes = some k) : is_canonical_key_name k = true := by
  unfold legacyGet at h
  cases hf : LEGACY_SEQUENCES.find? (fun p => p.1 == bytes) with
  | none => rw [hf] at h; simp at h
  | some p =>
    rw [hf] at h
    simp only [Option.map_some'] at h
    have hmem : p ∈ LEGACY_SEQUENCES := List.mem_of_find?_eq_some hf
    have hc := List.all_eq_true.mp canon_legacy p hmem
    rw [← Option.some.inj h]
    exact hc

theorem format_kitty_key_canon (p : ParsedKittySequence) (s : String)
    (h : format_kitty_key p = some s) : is_canonical_key_name s = true := by
  unfold format_kitty_key at h
  dsimp only at h
  split_ifs at h with hm
  · exact tok_canon_str s (format_key_name_tok _ s h)
  · rw [Option.map_eq_some'] at h
    obtain ⟨kn, hkn, hs⟩ := h
    rw [← hs]
    exact fwm_canon _ kn (format_key_name_tok _ kn hkn)

/-- C3 amended: every string `parse_key` returns is an optional prefix drawn
from `shift+`, `ctrl+`, `alt+` in that fixed order followed by either a
single printable-ASCII character (of either case) or one of the named keys
escape, tab, enter, space, backspace, insert, delete, home, end, pageUp,
pageDown, clear, up, down, left, right, f1..f12 — with Page Up / Page Down
camelCased, not all-lowercase as the claim states. -/
theorem C3_parse_key_canonical :
    ∀ (bytes : List Nat) (kitty_protocol_active : Bool) (s : String),
      parse_key bytes kitty_protocol_active = some s →
      is_canonical_key_name s = true := by
  intro bytes active s h
  unfold parse_key at h
  cases hE : parse_keyE bytes active with
  | error e => rw [hE] at h; simp at h
  | ok r =>
    rw [hE] at h
    subst h
    unfold parse_keyE parse_key_innerE at hE
    split at hE
    · -- single byte
      split at hE
      next e heq => simp at hE
      next b heq =>
        injection hE with hE2
        exact parse_single_byte_canon b s hE2
    · split at hE
      · -- not ESC-prefixed
        injection hE with hE2
        simp at hE2
      · split at hE
        next key heq =>
          -- legacy table hit
          injection hE with hE2
          rw [Option.some.inj hE2] at heq
          exact legacyGet_canon bytes s heq
        next heq =>
          split at hE
          next e heq2 => simp at hE
          next mods keycode heq2 =>
            -- modifyOtherKeys
            split at hE
            next heq3 => injection hE with hE2; simp at hE2
            next kn heq3 =>
              split at hE
              · injection hE with hE2
                rw [Option.some.inj hE2] at heq3
                exact tok_canon_str s (format_key_name_tok keycode s heq3)
              · injection hE with hE2
                rw [← Option.some.inj hE2]
                exact fwm_canon _ kn (format_key_name_tok keycode kn heq3)
          next heq2 =>
            split at hE
            next e heq3 => simp at hE
            next parsed heq3 =>
              -- Kitty decode
              injection hE with hE2
              exact format_kitty_key_canon parsed s hE2
            next heq3 =>
              split at hE
              · -- two-byte ESC pair
                split at hE
                next e heq4 => simp at hE
                next c heq4 =>
                  injection hE with hE2
                  exact parse_esc_pair_canon c active s hE2
              · split at hE
                · injection hE with hE2
                  rw [← Option.some.inj hE2]
                  decide
                · split at hE
                  · injection hE with hE2
                    rw [← Option.some.inj hE2]
                    decide
                  · injection hE with hE2
                    simp at hE2

/-- Witness for the amended C3 at a concrete input: `parse_key` on the
single byte `a` returns `"a"`, which is canonical. -/
theorem C3_parse_key_canonical_witness : is_canonical_key_name "a" = true :=
  C3_parse_key_canonical [97] false "a" (by decide)

/-- C4: for every byte sequence that is a key of the Legacy Sequence Table,
`parse_key` on that sequence with `kitty_protocol_active = false` returns
exactly the table entry's name, and `matches_legacy_sequence` on that
sequence with that name returns `true`. -/
theorem C4_legacy_table_roundtrip :
    (LEGACY_SEQUENCES.all fun p =>
      (parse_key p.1 false == some p.2) && matches_legacy_sequence p.1 p.2) =
      true := by
  decide

/-- C8: the three ESC-prefixed control-byte exception keys match for both
values of `kitty_protocol_active`: ESC TAB matches "alt+tab", ESC CR matches
"alt+enter", and ESC DEL matches "alt+backspace". -/
theorem C8_alt_exception_keys :
    matches_key [27, 9] "alt+tab" true = true ∧
      matches_key [27, 9] "alt+tab" false = true ∧
      matches_key [27, 13] "alt+enter" true = true ∧
      matches_key [27, 13] "alt+enter" false = true ∧
      matches_key [27, 127] "alt+backspace" true = true ∧
      matches_key [27, 127] "alt+backspace" false = true := by
  refine ⟨by decide, by decide, by decide, by decide, by decide, by decide⟩

/-- C9 counterexample: the key spec "ctrl+shift", whose final `+`-delimited
segment equals the modifier name `shift`, does not parse with key token
"shift": `parse_key_id` treats every segment as a modifier and returns
`none` because no key token remains. -/
theorem C9_ctrl_shift_counterexample :
    parse_key_id "ctrl+shift" = none := by
  decide

/-- C9 amended: a final segment equal to a recognized modifier name is
treated as a modifier, not as the key token (so "ctrl+shift" yields no key
and the parse fails); modifier names are recognized independently of
position (a trailing "ctrl" still sets the ctrl flag in "a+ctrl"), and the
last non-modifier segment becomes the key token. -/
theorem C9_modifier_segments :
    parse_key_id "ctrl+shift" = none ∧
      parse_key_id "a+ctrl" = some ⟨"a", true, false, false⟩ ∧
      parse_key_id "shift+ctrl+b" = some ⟨"b", true, true, false⟩ ∧
      parse_key_id "x+y" = some ⟨"y", false, false, false⟩ := by
  refine ⟨by decide, by decide, by decide, by decide⟩

/-- If `a &&& b = 0` then no bit is set in both `a` and `b`. -/
theorem testBit_eq_false_of_and_eq_zero {a b : Nat} (h : a &&& b = 0)
    {i : Nat} (hb : b.testBit i = true) : a.testBit i = false := by
  by_contra hc
  simp only [Bool.not_eq_false] at hc
  have ht : (a &&& b).testBit i = true := by
    rw [Nat.testBit_and, hc, hb]
    rfl
  rw [h] at ht
  simp [Nat.zero_testBit] at ht

/-- Or-ing in the lock bits 64 and 128 does not change a value masked by
`!LOCK_MASK`. -/
theorem lock_bits_masked_out (M : Nat) :
    (M ||| 64 ||| 128) &&& NOT_LOCK_MASK = M &&& NOT_LOCK_MASK := by
  apply Nat.eq_of_testBit_eq
  intro i
  simp only [Nat.testBit_and, Nat.testBit_or]
  by_cases hm : Nat.testBit NOT_LOCK_MASK i
  · have h64 : Nat.testBit 64 i = false :=
      testBit_eq_false_of_and_eq_zero (a := 64) (b := NOT_LOCK_MASK)
        (by decide) hm
    have h128 : Nat.testBit 128 i = false :=
      testBit_eq_false_of_and_eq_zero (a := 128) (b := NOT_LOCK_MASK)
        (by decide) hm
    rw [h64, h128, hm]
    simp
  · simp only [Bool.not_eq_true] at hm
    rw [hm]
    simp

/-- C7: the Caps-Lock/Num-Lock bits (64 and 128) of the expected modifier
never affect `matches_kitty_sequence`: for every input byte sequence, every
codepoint and every modifier bitmask `M`, the result with expected modifier
`M` equals the result with `M ||| 64 ||| 128`. -/
theorem C7_lock_bits_irrelevant :
    ∀ (data : List Nat) (cp : Int) (M : Nat),
      matches_kitty_sequence data cp M =
        matches_kitty_sequence data cp (M ||| 64 ||| 128) := by
  intro data cp M
  unfold matches_kitty_sequence matches_kitty_sequenceE
  cases h : parse_kitty_sequenceE data with
  | error e => rfl
  | ok r =>
    cases r with
    | none => rfl
    | some p =>
      simp only [lock_bits_masked_out]

-- Panic-freedom (claim C5): the `.error` branch of the panic monad is
-- unreachable for every exported operation, on every input.

theorem getByte_ok {bs : List Nat} {i : Nat} (h : i < bs.length) :
    getByte bs i = .ok bs[i] := by
  unfold getByte
  rw [List.getElem?_eq_getElem h]

theorem ok_ne_error {α : Type} {e : Except Unit α} (h : ExceptOk e)
    (u : Unit) : e ≠ Except.error u := by
  obtain ⟨v, hv⟩ := h
  rw [hv]
  simp

theorem getByte_ne_error {bs : List Nat} {i : Nat} (h : i < bs.length)
    (u : Unit) : getByte bs i ≠ Except.error u :=
  ok_ne_error ⟨_, getByte_ok h⟩ u

theorem parseDigitsGo_ok {bs : List Nat} {end_ : Nat} (h : end_ ≤ bs.length) :
    ∀ fuel idx value, ExceptOk (parseDigitsGo bs end_ fuel idx value) := by
  intro fuel
  induction fuel with
  | zero => intro idx value; exact ⟨some (value, idx), rfl⟩
  | succ n ih =>
    intro idx value
    simp only [parseDigitsGo]
    split
    · rename_i hlt
      split
      next e heq => exact absurd heq (getByte_ne_error (by omega) e)
      next b heq =>
        split
        · split
          · exact ih (idx + 1) _
          · exact ⟨none, rfl⟩
        · exact ⟨some (value, idx), rfl⟩
    · exact ⟨some (value, idx), rfl⟩

theorem parse_digits_ok {bs : List Nat} {end_ : Nat} (h : end_ ≤ bs.length)
    (idx : Nat) : ExceptOk (parse_digits bs idx end_) := by
  unfold parse_digits
  split
  · exact ⟨none, rfl⟩
  · rename_i hge
    split
    next e heq => exact absurd heq (getByte_ne_error (by omega) e)
    next b heq =>
      split
      · exact ⟨none, rfl⟩
      · exact parseDigitsGo_ok h _ idx 0

theorem parse_optional_digits_ok {bs : List Nat} {end_ : Nat}
    (h : end_ ≤ bs.length) (idx : Nat) :
    ExceptOk (parse_optional_digits bs idx end_) := by
  unfold parse_optional_digits
  split
  · exact ⟨(none, idx), rfl⟩
  · rename_i hge
    split
    next e heq => exact absurd heq (getByte_ne_error (by omega) e)
    next b heq =>
      split
      · exact ⟨(none, idx), rfl⟩
      · split
        next e heq2 => exact absurd heq2 (ok_ne_error (parse_digits_ok h idx) e)
        next heq2 => exact ⟨(none, idx), rfl⟩
        next v i heq2 => exact ⟨(some v, i), rfl⟩

theorem peekIs_ok {bs : List Nat} {end_ : Nat} (h : end_ ≤ bs.length)
    (idx c : Nat) : ExceptOk (peekIs bs idx end_ c) := by
  unfold peekIs
  split
  · rename_i hlt
    split
    next e heq => exact absurd heq (getByte_ne_error (by omega) e)
    next b heq => exact ⟨_, rfl⟩
  · exact ⟨false, rfl⟩

theorem peekDigit_ok {bs : List Nat} {end_ : Nat} (h : end_ ≤ bs.length)
    (idx : Nat) : ExceptOk (peekDigit bs idx end_) := by
  unfold peekDigit
  split
  · rename_i hlt
    split
    next e heq => exact absurd heq (getByte_ne_error (by omega) e)
    next b heq => exact ⟨_, rfl⟩
  · exact ⟨false, rfl⟩

theorem csiUTextGo_ok {bs : List Nat} {end_ : Nat} (h : end_ ≤ bs.length) :
    ∀ fuel idx, ExceptOk (csiUTextGo bs end_ fuel idx) := by
  intro fuel
  induction fuel with
  | zero => intro idx; exact ⟨some idx, rfl⟩
  | succ n ih =>
    intro idx
    simp only [csiUTextGo]
    split
    · rename_i hlt
      split
      next e heq => exact absurd heq (getByte_ne_error (by omega) e)
      next b heq =>
        split
        · exact ih (idx + 1)
        · split
          next e heq2 =>
            exact absurd heq2 (ok_ne_error (parse_digits_ok h idx) e)
          next heq2 => exact ⟨none, rfl⟩
          next v j heq2 =>
            split
            next e heq3 => exact absurd heq3 (ok_ne_error (peekIs_ok h j 58) e)
            next heq3 => exact ih (j + 1)
            next heq3 => exact ih j
    · exact ⟨some idx, rfl⟩

theorem csiUText_ok {bs : List Nat} {end_ : Nat} (h : end_ ≤ bs.length)
    (idx : Nat) : ExceptOk (csiUText bs end_ idx) := by
  unfold csiUText
  split
  next e heq => exact absurd heq (ok_ne_error (peekIs_ok h idx 59) e)
  next heq => exact csiUTextGo_ok h _ _
  next heq => exact ⟨some idx, rfl⟩

theorem csiUAlt_ok {bs : List Nat} {end_ : Nat} (h : end_ ≤ bs.length)
    (idx : Nat) : ExceptOk (csiUAlt bs end_ idx) := by
  unfold csiUAlt
  split
  next e heq => exact absurd heq (ok_ne_error (peekIs_ok h idx 58) e)
  next heq => exact ⟨_, rfl⟩
  next heq =>
    split
    next e heq2 =>
      exact absurd heq2 (ok_ne_error (parse_optional_digits_ok h (idx + 1)) e)
    next sv idx2 heq2 =>
      split
      next e heq3 => exact absurd heq3 (ok_ne_error (peekIs_ok h idx2 58) e)
      next heq3 => exact ⟨_, rfl⟩
      next heq3 =>
        split
        next e heq4 =>
          exact absurd heq4 (ok_ne_error (parse_digits_ok h (idx2 + 1)) e)
        next heq4 => exact ⟨none, rfl⟩
        next bv idx3 heq4 =>
          split
          · exact ⟨none, rfl⟩
          · exact ⟨_, rfl⟩

theorem csiUMods_ok {bs : List Nat} {end_ : Nat} (h : end_ ≤ bs.length)
    (idx : Nat) : ExceptOk (csiUMods bs end_ idx) := by
  unfold csiUMods
  split
  next e heq => exact absurd heq (ok_ne_error (peekIs_ok h idx 59) e)
  next heq => exact ⟨_, rfl⟩
  next heq =>
    split
    next e heq2 => exact absurd heq2 (ok_ne_error (peekDigit_ok h (idx + 1)) e)
    next hasDigits heq2 =>
      split
      next e heq3 =>
        have hok : ExceptOk (if hasDigits then parse_digits bs (idx + 1) end_
            else Except.ok (some (1, idx + 1))) := by
          split
          · exact parse_digits_ok h (idx + 1)
          · exact ⟨_, rfl⟩
        exact absurd heq3 (ok_ne_error hok e)
      next heq3 => exact ⟨none, rfl⟩
      next mv idx2 heq3 =>
        split
        next e heq4 => exact absurd heq4 (ok_ne_error (peekIs_ok h idx2 58) e)
        next heq4 => exact ⟨_, rfl⟩
        next heq4 =>
          split
          next e heq5 =>
            exact absurd heq5 (ok_ne_error (parse_digits_ok h (idx2 + 1)) e)
          next heq5 => exact ⟨none, rfl⟩
          next ev idx3 heq5 => exact ⟨_, rfl⟩

theorem parse_csi_u_ok (bytes : List Nat) : ExceptOk (parse_csi_u bytes) := by
  unfold parse_csi_u
  dsimp only
  have h : bytes.length - 1 ≤ bytes.length := by omega
  split
  next e heq => exact absurd heq (ok_ne_error (parse_digits_ok h 2) e)
  next heq => exact ⟨none, rfl⟩
  next cpU idx1 heq =>
    split
    · exact ⟨none, rfl⟩
    · split
      next e heq2 => exact absurd heq2 (ok_ne_error (csiUAlt_ok h _) e)
      next heq2 => exact ⟨none, rfl⟩
      next shifted base idx2 heq2 =>
        split
        next e heq3 => exact absurd heq3 (ok_ne_error (csiUMods_ok h _) e)
        next heq3 => exact ⟨none, rfl⟩
        next mv ev idx3 heq3 =>
          split
          next e heq4 => exact absurd heq4 (ok_ne_error (csiUText_ok h _) e)
          next heq4 => exact ⟨none, rfl⟩
          next idx4 heq4 =>
            split
            · exact ⟨none, rfl⟩
            · exact ⟨_, rfl⟩

theorem csi1Finish_ok {bytes : List Nat} {end_ : Nat}
    (h : end_ ≤ bytes.length) (ev : Option Nat) (mv idx : Nat) :
    ExceptOk (csi1Finish bytes end_ ev mv idx) := by
  unfold csi1Finish
  split
  · exact ⟨none, rfl⟩
  · rename_i hcond
    have hidx : idx < bytes.length := by
      simp only [Bool.or_eq_true, bne_iff_ne, beq_iff_eq, not_or] at hcond
      omega
    split
    next e heq => exact absurd heq (getByte_ne_error hidx e)
    next b heq =>
      split
      · exact ⟨none, rfl⟩
      · exact ⟨_, rfl⟩

theorem parse_csi_1_letter_ok (bytes : List Nat) :
    ExceptOk (parse_csi_1_letter bytes) := by
  unfold parse_csi_1_letter
  dsimp only
  have h : bytes.length ≤ bytes.length := le_refl _
  split
  · exact ⟨none, rfl⟩
  · split
    next e heq => exact absurd heq (ok_ne_error (parse_digits_ok h 4) e)
    next heq => exact ⟨none, rfl⟩
    next mv idx1 heq =>
      split
      next e heq2 => exact absurd heq2 (ok_ne_error (peekIs_ok h _ 58) e)
      next heq2 =>
        split
        next e heq3 => exact absurd heq3 (ok_ne_error (parse_digits_ok h _) e)
        next heq3 => exact ⟨none, rfl⟩
        next ev idx2 heq3 => exact csi1Finish_ok h _ _ _
      next heq2 => exact csi1Finish_ok h _ _ _

theorem functionalDone_ok (keyNum mv : Nat) (ev : Option Nat)
    (idx end_ : Nat) : ExceptOk (functionalDone keyNum mv ev idx end_) := by
  unfold functionalDone
  split
  · exact ⟨none, rfl⟩
  · split
    · exact ⟨none, rfl⟩
    · exact ⟨_, rfl⟩

theorem functionalEvent_ok {bytes : List Nat} {end_ : Nat}
    (h : end_ ≤ bytes.length) (keyNum mv idx : Nat) :
    ExceptOk (functionalEvent bytes end_ keyNum mv idx) := by
  unfold functionalEvent
  split
  next e heq => exact absurd heq (ok_ne_error (peekIs_ok h idx 58) e)
  next heq =>
    split
    next e heq2 => exact absurd heq2 (ok_ne_error (parse_digits_ok h _) e)
    next heq2 => exact ⟨none, rfl⟩
    next ev idx2 heq2 => exact functionalDone_ok _ _ _ _ _
  next heq => exact functionalDone_ok _ _ _ _ _

theorem parse_functional_ok (bytes : List Nat) :
    ExceptOk (parse_functional bytes) := by
  unfold parse_functional
  dsimp only
  have h : bytes.length - 1 ≤ bytes.length := by omega
  split
  next e heq => exact absurd heq (ok_ne_error (parse_digits_ok h 2) e)
  next heq => exact ⟨none, rfl⟩
  next keyNum idx1 heq =>
    split
    next e heq2 => exact absurd heq2 (ok_ne_error (peekIs_ok h _ 59) e)
    next heq2 =>
      split
      next e heq3 => exact absurd heq3 (ok_ne_error (parse_digits_ok h _) e)
      next heq3 => exact ⟨none, rfl⟩
      next mv idx2 heq3 => exact functionalEvent_ok h _ _ _
    next heq2 => exact functionalEvent_ok h _ _ _

theorem parse_kitty_sequenceE_ok (bytes : List Nat) :
    ExceptOk (parse_kitty_sequenceE bytes) := by
  unfold parse_kitty_sequenceE
  split
  · exact ⟨none, rfl⟩
  · rename_i hlen
    simp only [Nat.not_lt] at hlen
    split
    next e heq => exact absurd heq (getByte_ne_error (by omega) e)
    next b0 heq =>
      split
      · exact ⟨none, rfl⟩
      · split
        next e heq2 => exact absurd heq2 (getByte_ne_error (by omega) e)
        next b1 heq2 =>
          split
          · exact ⟨none, rfl⟩
          · split
            next heq3 => exact ⟨none, rfl⟩
            next last0 heq3 =>
              split
              · exact parse_csi_u_ok bytes
              · split
                · exact parse_functional_ok bytes
                · split
                  · exact parse_csi_1_letter_ok bytes
                  · exact ⟨none, rfl⟩

theorem mokTail_ok {bytes : List Nat} {end_ : Nat} (h : end_ ≤ bytes.length) :
    ExceptOk (mokTail bytes end_) := by
  unfold mokTail
  split
  · exact ⟨none, rfl⟩
  · split
    next e heq => exact absurd heq (ok_ne_error (parse_digits_ok h 5) e)
    next heq => exact ⟨none, rfl⟩
    next mv idx1 heq =>
      split
      next e heq2 => exact absurd heq2 (ok_ne_error (peekIs_ok h _ 59) e)
      next heq2 => exact ⟨none, rfl⟩
      next heq2 =>
        split
        next e heq3 =>
          exact absurd heq3 (ok_ne_error (parse_digits_ok h _) e)
        next heq3 => exact ⟨none, rfl⟩
        next kc idx2 heq3 =>
          split
          · exact ⟨none, rfl⟩
          · split
            · exact ⟨none, rfl⟩
            · exact ⟨_, rfl⟩

theorem parse_modify_other_keysE_ok (bytes : List Nat) :
    ExceptOk (parse_modify_other_keysE bytes) := by
  unfold parse_modify_other_keysE
  split
  · exact ⟨none, rfl⟩
  · exact mokTail_ok (by split <;> omega)

theorem matches_key_innerE_ok (bytes : List Nat) (key_id : String)
    (kitty_protocol_active : Bool) :
    ExceptOk (matches_key_innerE bytes key_id kitty_protocol_active) := by
  unfold matches_key_innerE
  split
  · exact ⟨false, rfl⟩
  · split
    next e heq => exact absurd heq (ok_ne_error (parse_kitty_sequenceE_ok bytes) e)
    next kp heq =>
      split
      next e heq2 =>
        exact absurd heq2 (ok_ne_error (parse_modify_other_keysE_ok bytes) e)
      next mok heq2 => exact ⟨_, rfl⟩

theorem parse_key_innerE_ok (bytes : List Nat) (kitty_protocol_active : Bool) :
    ExceptOk (parse_key_innerE bytes kitty_protocol_active) := by
  unfold parse_key_innerE
  split
  · rename_i hlen
    simp only [beq_iff_eq] at hlen
    split
    next e heq => exact absurd heq (getByte_ne_error (by omega) e)
    next b heq => exact ⟨_, rfl⟩
  · split
    · exact ⟨none, rfl⟩
    · split
      next key heq => exact ⟨_, rfl⟩
      next heq =>
        split
        next e heq2 =>
          exact absurd heq2 (ok_ne_error (parse_modify_other_keysE_ok bytes) e)
        next mods keycode heq2 =>
          split
          · exact ⟨none, rfl⟩
          · split
            · exact ⟨_, rfl⟩
            · exact ⟨_, rfl⟩
        next heq2 =>
          split
          next e heq3 =>
            exact absurd heq3 (ok_ne_error (parse_kitty_sequenceE_ok bytes) e)
          next parsed heq3 => exact ⟨_, rfl⟩
          next heq3 =>
            split
            · rename_i hlen2
              simp only [beq_iff_eq] at hlen2
              split
              next e heq4 => exact absurd heq4 (getByte_ne_error (by omega) e)
              next c heq4 => exact ⟨_, rfl⟩
            · split
              · exact ⟨_, rfl⟩
              · split
                · exact ⟨_, rfl⟩
                · exact ⟨none, rfl⟩

/-- C5: no input panics.  For every byte sequence and every argument value,
each exported operation (`parse_key`, `matches_key`, `matches_kitty_sequence`,
`matches_legacy_sequence`, `parse_kitty_sequence`) returns normally — in the
panic-instrumented embedding, the `.error` (panic) branch is unreachable:
every index access and every arithmetic step is guarded. -/
theorem C5_no_panic :
    ∀ (bytes : List Nat) (kitty_protocol_active : Bool) (key_id : String)
      (cp : Int) (m : Nat) (key_name : String),
      ExceptOk (parse_keyE bytes kitty_protocol_active) ∧
        ExceptOk (matches_keyE bytes key_id kitty_protocol_active) ∧
        ExceptOk (matches_kitty_sequenceE bytes cp m) ∧
        ExceptOk (matches_legacy_sequenceE bytes key_name) ∧
        ExceptOk (parse_kitty_sequenceE bytes) := by
  intro bytes active key_id cp m key_name
  refine ⟨parse_key_innerE_ok bytes active,
    matches_key_innerE_ok bytes key_id active, ?_, ⟨_, rfl⟩,
    parse_kitty_sequenceE_ok bytes⟩
  unfold matches_kitty_sequenceE
  split
  next e heq => exact absurd heq (ok_ne_error (parse_kitty_sequenceE_ok bytes) e)
  next heq => exact ⟨false, rfl⟩
  next p heq => exact ⟨_, rfl⟩

-- Digit-run characterization (claim C6): `parse_digits` on a window that
-- starts with a maximal digit run computes exactly the checked value of
-- that run.

theorem parseDigitsGo_run (bs : List Nat) (end_ : Nat) :
    ∀ (ds rest : List Nat) (idx acc fuel : Nat),
      (∀ d ∈ ds, isDigitByte d = true) →
      bs.drop idx = ds ++ rest →
      idx + ds.length ≤ end_ →
      (idx + ds.length = end_ ∨
        (∃ b rest2, rest = b :: rest2 ∧ isDigitByte b = false)) →
      ds.length ≤ fuel →
      parseDigitsGo bs end_ fuel idx acc =
        .ok ((runVal acc ds).map fun v => (v, idx + ds.length)) := by
  intro ds
  induction ds with
  | nil =>
    intro rest idx acc fuel hdig hdrop hle hstop hfuel
    simp only [List.length_nil, Nat.add_zero] at hle hstop ⊢
    simp only [runVal, Option.map_some']
    cases fuel with
    | zero => simp [parseDigitsGo]
    | succ f =>
      simp only [parseDigitsGo]
      rcases hstop with hstop | ⟨b, rest2, hrest, hbd⟩
      · rw [if_neg (by omega)]
      · by_cases hlt : idx < end_
        · rw [if_pos hlt]
          have hb : bs[idx]? = some b := by
            have h0 : (bs.drop idx)[0]? = some b := by
              rw [hdrop, hrest]
              simp
            rw [List.getElem?_drop] at h0
            simpa using h0
          have hgb : getByte bs idx = .ok b := by
            unfold getByte
            rw [hb]
          rw [hgb]
          simp [hbd]
        · rw [if_neg hlt]
  | cons d ds' ih =>
    intro rest idx acc fuel hdig hdrop hle hstop hfuel
    cases fuel with
    | zero => simp at hfuel
    | succ f =>
      have hlt : idx < end_ := by
        simp only [List.length_cons] at hle
        omega
      have hb : bs[idx]? = some d := by
        have h0 : (bs.drop idx)[0]? = some d := by
          rw [hdrop]
          simp
        rw [List.getElem?_drop] at h0
        simpa using h0
      have hgb : getByte bs idx = .ok d := by
        unfold getByte
        rw [hb]
      have hdd : isDigitByte d = true := hdig d (by simp)
      simp only [parseDigitsGo]
      rw [if_pos hlt, hgb]
      simp only [hdd, if_true, runVal]
      have hdrop2 : bs.drop (idx + 1) = ds' ++ rest := by
        have hdd2 : bs.drop (idx + 1) = (bs.drop idx).drop 1 := by
          rw [List.drop_drop]
        rw [hdd2, hdrop]
        rfl
      have hdig2 : ∀ x ∈ ds', isDigitByte x = true := fun x hx =>
        hdig x (by simp [hx])
      have hstop2 : (idx + 1) + ds'.length = end_ ∨
          (∃ b rest2, rest = b :: rest2 ∧ isDigitByte b = false) := by
        rcases hstop with hstop | hstop
        · left
          simp only [List.length_cons] at hstop
          omega
        · right
          exact hstop
      by_cases hov : acc * 10 + (d - 48) < 4294967296
      · rw [if_pos hov, if_pos hov]
        have harith : idx + (d :: ds').length = (idx + 1) + ds'.length := by
          simp only [List.length_cons]
          omega
        rw [harith]
        exact ih rest (idx + 1) _ f hdig2 hdrop2
          (by simp only [List.length_cons] at hle; omega) hstop2
          (by simp only [List.length_cons] at hfuel; omega)
      · rw [if_neg hov, if_neg hov]
        rfl

theorem parse_digits_run (bs : List Nat) (idx end_ : Nat)
    (ds rest : List Nat) (hne : ds ≠ [])
    (hdig : ∀ d ∈ ds, isDigitByte d = true)
    (hdrop : bs.drop idx = ds ++ rest)
    (hle : idx + ds.length ≤ end_)
    (hstop : idx + ds.length = end_ ∨
      (∃ b rest2, rest = b :: rest2 ∧ isDigitByte b = false)) :
    parse_digits bs idx end_ =
      .ok ((runVal 0 ds).map fun v => (v, idx + ds.length)) := by
  obtain ⟨d, ds', rfl⟩ := List.exists_cons_of_ne_nil hne
  have hlt : idx < end_ := by
    simp only [List.length_cons] at hle
    omega
  have hb : bs[idx]? = some d := by
    have h0 : (bs.drop idx)[0]? = some d := by
      rw [hdrop]
      simp
    rw [List.getElem?_drop] at h0
    simpa using h0
  have hgb : getByte bs idx = .ok d := by
    unfold getByte
    rw [hb]
  have hdd : isDigitByte d = true := hdig d (by simp)
  unfold parse_digits
  rw [if_neg (by omega), hgb]
  simp only [hdd, Bool.not_true, if_false]
  exact parseDigitsGo_run bs end_ (d :: ds') rest idx 0 (end_ - idx) hdig
    hdrop hle hstop (by simp only [List.length_cons] at hle ⊢; omega)

theorem runVal_zeros : ∀ n, runVal 0 (List.replicate n 48) = some 0 := by
  intro n
  induction n with
  | zero => rfl
  | succ m ih =>
    simp only [List.replicate_succ, runVal]
    norm_num
    exact ih

-- Modifier-field-zero encodings (claim C6).

/-- CSI-u sequence `ESC [ <ds> ; 0…0 u` with an explicit all-zero modifier
field. -/
def csiUZeroBytes (ds : List Nat) (k : Nat) : List Nat :=
  [27, 91] ++ ds ++ 59 :: (List.replicate (k + 1) 48 ++ [117])

theorem csiU_zero_aux (ds : List Nat) (k : Nat) (hne : ds ≠ [])
    (hdig : ∀ d ∈ ds, isDigitByte d = true) :
    parse_kitty_sequenceE (csiUZeroBytes ds k) = .ok none := by
  have hlenA : (csiUZeroBytes ds k).length = ds.length + k + 5 := by
    simp only [csiUZeroBytes, List.length_append, List.length_cons,
      List.length_replicate, List.length_nil]
    omega
  have hdrop2 : (csiUZeroBytes ds k).drop 2 =
      ds ++ (59 :: (List.replicate (k + 1) 48 ++ [117])) := by
    simp [csiUZeroBytes]
  have hb59 : (csiUZeroBytes ds k)[2 + ds.length]? = some 59 := by
    have h0 := List.getElem?_drop (csiUZeroBytes ds k) 2 ds.length
    rw [hdrop2, List.getElem?_append_right (le_refl ds.length)] at h0
    rw [← h0]
    simp
  have hdropMods : (csiUZeroBytes ds k).drop (2 + ds.length + 1) =
      List.replicate (k + 1) 48 ++ [117] := by
    have h1 := List.drop_drop (ds.length + 1) 2 (csiUZeroBytes ds k)
    have h2 : (2 : Nat) + ds.length + 1 = 2 + (ds.length + 1) := by omega
    rw [h2, ← h1, hdrop2]
    have h3 : ds ++ (59 :: (List.replicate (k + 1) 48 ++ [117])) =
        (ds ++ [59]) ++ (List.replicate (k + 1) 48 ++ [117]) := by
      simp
    rw [h3]
    exact @List.drop_left' _ (ds ++ [59]) _ (ds.length + 1) (by simp)
  have hlast : (csiUZeroBytes ds k).getLast? = some 117 := by
    have h2 : csiUZeroBytes ds k =
        ([27, 91] ++ ds ++ 59 :: List.replicate (k + 1) 48) ++ [117] := by
      simp [csiUZeroBytes]
    rw [h2]
    exact List.getLast?_concat _
  -- dispatch to parse_csi_u
  have hgb0 : getByte (csiUZeroBytes ds k) 0 = .ok 27 := by
    unfold getByte
    simp [csiUZeroBytes]
  have hgb1 : getByte (csiUZeroBytes ds k) 1 = .ok 91 := by
    unfold getByte
    simp [csiUZeroBytes]
  unfold parse_kitty_sequenceE
  rw [if_neg (by omega), hlast]
  simp only [hgb0, hgb1]
  norm_num
  unfold parse_csi_u
  dsimp only
  have hE : (csiUZeroBytes ds k).length - 1 = ds.length + (k + 4) := by
    omega
  rw [hE]
  rw [parse_digits_run (csiUZeroBytes ds k) 2 (ds.length + (k + 4)) ds
    (59 :: (List.replicate (k + 1) 48 ++ [117])) hne hdig hdrop2 (by omega)
    (Or.inr ⟨59, _, rfl, by decide⟩)]
  cases hrv : runVal 0 ds with
  | none =>
    rfl
  | some v =>
    simp only [Option.map_some']
    by_cases hv : v < 2147483648
    · have hi32 : i32_try_from v = some (Int.ofNat v) := by
        unfold i32_try_from
        rw [if_pos hv]
      have hpeekAlt : peekIs (csiUZeroBytes ds k) (2 + ds.length)
          (ds.length + (k + 4)) 58 = .ok false := by
        unfold peekIs
        rw [if_pos (by omega)]
        have hgb : getByte (csiUZeroBytes ds k) (2 + ds.length) = .ok 59 := by
          unfold getByte
          rw [hb59]
        rw [hgb]
        rfl
      have hAlt : csiUAlt (csiUZeroBytes ds k) (ds.length + (k + 4))
          (2 + ds.length) = .ok (some (none, none, 2 + ds.length)) := by
        unfold csiUAlt
        rw [hpeekAlt]
      have hpeekSemi : peekIs (csiUZeroBytes ds k) (2 + ds.length)
          (ds.length + (k + 4)) 59 = .ok true := by
        unfold peekIs
        rw [if_pos (by omega)]
        have hgb : getByte (csiUZeroBytes ds k) (2 + ds.length) = .ok 59 := by
          unfold getByte
          rw [hb59]
        rw [hgb]
        rfl
      have hb48 : getByte (csiUZeroBytes ds k) (2 + ds.length + 1) =
          .ok 48 := by
        unfold getByte
        have h0 := List.getElem?_drop (csiUZeroBytes ds k)
          (2 + ds.length + 1) 0
        rw [hdropMods] at h0
        simp only [Nat.add_zero] at h0
        rw [← h0]
        simp [List.replicate_succ]
      have hpeekDig : peekDigit (csiUZeroBytes ds k) (2 + ds.length + 1)
          (ds.length + (k + 4)) = .ok true := by
        unfold peekDigit
        rw [if_pos (by omega), hb48]
        rfl
      have hrunMods : parse_digits (csiUZeroBytes ds k) (2 + ds.length + 1)
          (ds.length + (k + 4)) =
          .ok (some (0, 2 + ds.length + 1 + (k + 1))) := by
        rw [parse_digits_run (csiUZeroBytes ds k) (2 + ds.length + 1)
          (ds.length + (k + 4)) (List.replicate (k + 1) 48) [117]
          (by simp) (fun d hd => by rw [List.eq_of_mem_replicate hd]; rfl)
          hdropMods (by simp only [List.length_replicate]; omega)
          (Or.inl (by simp only [List.length_replicate]; omega))]
        rw [runVal_zeros]
        simp [List.length_replicate]
      have hpeekColon : peekIs (csiUZeroBytes ds k)
          (2 + ds.length + 1 + (k + 1)) (ds.length + (k + 4)) 58 =
          .ok false := by
        unfold peekIs
        rw [if_neg (by omega)]
      have hMods : csiUMods (csiUZeroBytes ds k) (ds.length + (k + 4))
          (2 + ds.length) =
          .ok (some (0, none, 2 + ds.length + 1 + (k + 1))) := by
        unfold csiUMods
        rw [hpeekSemi]
        simp only [hpeekDig, if_true, hrunMods, hpeekColon]
      have hText : csiUText (csiUZeroBytes ds k) (ds.length + (k + 4))
          (2 + ds.length + 1 + (k + 1)) =
          .ok (some (2 + ds.length + 1 + (k + 1))) := by
        unfold csiUText
        have hp : peekIs (csiUZeroBytes ds k) (2 + ds.length + 1 + (k + 1))
            (ds.length + (k + 4)) 59 = .ok false := by
          unfold peekIs
          rw [if_neg (by omega)]
        rw [hp]
      rw [hi32]
      simp only [hAlt, hMods, hText]
      simp
    · have hi32 : i32_try_from v = none := by
        unfold i32_try_from
        rw [if_neg hv]
      rw [hi32]

/-- Functional sequence `ESC [ <ds> ; 0…0 ~` with an explicit all-zero
modifier field. -/
def functionalZeroBytes (ds : List Nat) (k : Nat) : List Nat :=
  [27, 91] ++ ds ++ 59 :: (List.replicate (k + 1) 48 ++ [126])

theorem functional_zero_aux (ds : List Nat) (k : Nat) (hne : ds ≠ [])
    (hdig : ∀ d ∈ ds, isDigitByte d = true) :
    parse_kitty_sequenceE (functionalZeroBytes ds k) = .ok none := by
  have hlenA : (functionalZeroBytes ds k).length = ds.length + k + 5 := by
    simp only [functionalZeroBytes, List.length_append, List.length_cons,
      List.length_replicate, List.length_nil]
    omega
  have hdrop2 : (functionalZeroBytes ds k).drop 2 =
      ds ++ (59 :: (List.replicate (k + 1) 48 ++ [126])) := by
    simp [functionalZeroBytes]
  have hb59 : (functionalZeroBytes ds k)[2 + ds.length]? = some 59 := by
    have h0 := List.getElem?_drop (functionalZeroBytes ds k) 2 ds.length
    rw [hdrop2, List.getElem?_append_right (le_refl ds.length)] at h0
    rw [← h0]
    simp
  have hdropMods : (functionalZeroBytes ds k).drop (2 + ds.length + 1) =
      List.replicate (k + 1) 48 ++ [126] := by
    have h1 := List.drop_drop (ds.length + 1) 2 (functionalZeroBytes ds k)
    have h2 : (2 : Nat) + ds.length + 1 = 2 + (ds.length + 1) := by omega
    rw [h2, ← h1, hdrop2]
    have h3 : ds ++ (59 :: (List.replicate (k + 1) 48 ++ [126])) =
        (ds ++ [59]) ++ (List.replicate (k + 1) 48 ++ [126]) := by
      simp
    rw [h3]
    exact @List.drop_left' _ (ds ++ [59]) _ (ds.length + 1) (by simp)
  have hlast : (functionalZeroBytes ds k).getLast? = some 126 := by
    have h2 : functionalZeroBytes ds k =
        ([27, 91] ++ ds ++ 59 :: List.replicate (k + 1) 48) ++ [126] := by
      simp [functionalZeroBytes]
    rw [h2]
    exact List.getLast?_concat _
  have hgb0 : getByte (functionalZeroBytes ds k) 0 = .ok 27 := by
    unfold getByte
    simp [functionalZeroBytes]
  have hgb1 : getByte (functionalZeroBytes ds k) 1 = .ok 91 := by
    unfold getByte
    simp [functionalZeroBytes]
  unfold parse_kitty_sequenceE
  rw [if_neg (by omega), hlast]
  simp only [hgb0, hgb1]
  norm_num
  unfold parse_functional
  dsimp only
  have hE : (functionalZeroBytes ds k).length - 1 = ds.length + (k + 4) := by
    omega
  rw [hE]
  rw [parse_digits_run (functionalZeroBytes ds k) 2 (ds.length + (k + 4)) ds
    (59 :: (List.replicate (k + 1) 48 ++ [126])) hne hdig hdrop2 (by omega)
    (Or.inr ⟨59, _, rfl, by decide⟩)]
  cases hrv : runVal 0 ds with
  | none =>
    rfl
  | some v =>
    simp only [Option.map_some']
    have hpeekSemi : peekIs (functionalZeroBytes ds k) (2 + ds.length)
        (ds.length + (k + 4)) 59 = .ok true := by
      unfold peekIs
      rw [if_pos (by omega)]
      have hgb : getByte (functionalZeroBytes ds k) (2 + ds.length) =
          .ok 59 := by
        unfold getByte
        rw [hb59]
      rw [hgb]
      rfl
    have hrunMods : parse_digits (functionalZeroBytes ds k)
        (2 + ds.length + 1) (ds.length + (k + 4)) =
        .ok (some (0, 2 + ds.length + 1 + (k + 1))) := by
      rw [parse_digits_run (functionalZeroBytes ds k) (2 + ds.length + 1)
        (ds.length + (k + 4)) (List.replicate (k + 1) 48) [126]
        (by simp) (fun d hd => by rw [List.eq_of_mem_replicate hd]; rfl)
        hdropMods (by simp only [List.length_replicate]; omega)
        (Or.inl (by simp only [List.length_replicate]; omega))]
      rw [runVal_zeros]
      simp [List.length_replicate]
    have hpeekColon : peekIs (functionalZeroBytes ds k)
        (2 + ds.length + 1 + (k + 1)) (ds.length + (k + 4)) 58 =
        .ok false := by
      unfold peekIs
      rw [if_neg (by omega)]
    simp only [hpeekSemi, hrunMods]
    unfold functionalEvent
    simp only [hpeekColon]
    unfold functionalDone
    simp

/-- CSI-1-letter sequence `ESC [ 1 ; 0…0 <letter>` with an explicit
all-zero modifier field. -/
def csi1ZeroBytes (k L : Nat) : List Nat :=
  [27, 91, 49, 59] ++ (List.replicate (k + 1) 48 ++ [L])

theorem csi1_zero_aux (k L : Nat)
    (hL : L = 65 ∨ L = 66 ∨ L = 67 ∨ L = 68 ∨ L = 69 ∨ L = 70 ∨ L = 72 ∨
      L = 80 ∨ L = 81 ∨ L = 82 ∨ L = 83) :
    parse_kitty_sequenceE (csi1ZeroBytes k L) = .ok none := by
  have hLnd : isDigitByte L = false := by
    rcases hL with rfl | rfl | rfl | rfl | rfl | rfl | rfl | rfl | rfl |
      rfl | rfl <;> rfl
  have h117 : (L == 117) = false := by
    rcases hL with rfl | rfl | rfl | rfl | rfl | rfl | rfl | rfl | rfl |
      rfl | rfl <;> rfl
  have h126 : (L == 126) = false := by
    rcases hL with rfl | rfl | rfl | rfl | rfl | rfl | rfl | rfl | rfl |
      rfl | rfl <;> rfl
  have hset : (L == 65 || L == 66 || L == 67 || L == 68 || L == 69 ||
      L == 70 || L == 72 || L == 80 || L == 81 || L == 82 || L == 83) =
      true := by
    rcases hL with rfl | rfl | rfl | rfl | rfl | rfl | rfl | rfl | rfl |
      rfl | rfl <;> rfl
  have h58 : (L == 58) = false := by
    rcases hL with rfl | rfl | rfl | rfl | rfl | rfl | rfl | rfl | rfl |
      rfl | rfl <;> rfl
  have hlenA : (csi1ZeroBytes k L).length = k + 6 := by
    simp only [csi1ZeroBytes, List.length_append, List.length_cons,
      List.length_replicate, List.length_nil]
    omega
  have hdrop4 : (csi1ZeroBytes k L).drop 4 =
      List.replicate (k + 1) 48 ++ [L] := by
    simp [csi1ZeroBytes]
  have hbL : (csi1ZeroBytes k L)[4 + (k + 1)]? = some L := by
    have h0 := List.getElem?_drop (csi1ZeroBytes k L) 4 (k + 1)
    rw [hdrop4] at h0
    rw [← h0]
    rw [List.getElem?_append_right (by simp)]
    simp
  have hlast : (csi1ZeroBytes k L).getLast? = some L := by
    have h2 : csi1ZeroBytes k L =
        ([27, 91, 49, 59] ++ List.replicate (k + 1) 48) ++ [L] := by
      simp [csi1ZeroBytes]
    rw [h2]
    exact List.getLast?_concat _
  have hgb0 : getByte (csi1ZeroBytes k L) 0 = .ok 27 := by
    unfold getByte
    simp [csi1ZeroBytes]
  have hgb1 : getByte (csi1ZeroBytes k L) 1 = .ok 91 := by
    unfold getByte
    simp [csi1ZeroBytes]
  unfold parse_kitty_sequenceE
  rw [if_neg (by omega), hlast]
  simp only [hgb0, hgb1, h117, h126, hset]
  norm_num
  unfold parse_csi_1_letter
  have hpre : [27, 91, 49, 59].isPrefixOf (csi1ZeroBytes k L) = true := by
    rfl
  rw [if_neg (by rw [hpre]; simp)]
  dsimp only
  rw [hlenA]
  rw [parse_digits_run (csi1ZeroBytes k L) 4 (k + 6)
    (List.replicate (k + 1) 48) [L] (by simp)
    (fun d hd => by rw [List.eq_of_mem_replicate hd]; rfl) hdrop4
    (by simp only [List.length_replicate]; omega)
    (Or.inr ⟨L, [], rfl, hLnd⟩)]
  rw [runVal_zeros]
  simp only [Option.map_some', List.length_replicate]
  have hpeekColon : peekIs (csi1ZeroBytes k L) (4 + (k + 1)) (k + 6) 58 =
      .ok false := by
    unfold peekIs
    rw [if_pos (by omega)]
    have hgb : getByte (csi1ZeroBytes k L) (4 + (k + 1)) = .ok L := by
      unfold getByte
      rw [hbL]
    rw [hgb]
    simp only [h58]
  simp only [hpeekColon]
  unfold csi1Finish
  simp

/-- modifyOtherKeys sequence `ESC [ 2 7 ; 0…0 ; <ds> ~` with an explicit
all-zero modifier field. -/
def mokZeroBytes (ds : List Nat) (k : Nat) : List Nat :=
  [27, 91, 50, 55, 59] ++ (List.replicate (k + 1) 48 ++ (59 :: (ds ++ [126])))

theorem mok_zero_aux (ds : List Nat) (k : Nat) (hne : ds ≠ [])
    (hdig : ∀ d ∈ ds, isDigitByte d = true) :
    parse_modify_other_keysE (mokZeroBytes ds k) = .ok none := by
  have hlenA : (mokZeroBytes ds k).length = ds.length + k + 8 := by
    simp only [mokZeroBytes, List.length_append, List.length_cons,
      List.length_replicate, List.length_nil]
    omega
  have hdrop5 : (mokZeroBytes ds k).drop 5 =
      List.replicate (k + 1) 48 ++ (59 :: (ds ++ [126])) := by
    simp [mokZeroBytes]
  have hb59 : (mokZeroBytes ds k)[5 + (k + 1)]? = some 59 := by
    have h0 := List.getElem?_drop (mokZeroBytes ds k) 5 (k + 1)
    rw [hdrop5] at h0
    rw [← h0]
    rw [List.getElem?_append_right (by simp)]
    simp
  have hdropKey : (mokZeroBytes ds k).drop (5 + (k + 1) + 1) =
      ds ++ [126] := by
    have h1 := List.drop_drop (k + 2) 5 (mokZeroBytes ds k)
    have h2 : (5 : Nat) + (k + 1) + 1 = 5 + (k + 2) := by omega
    rw [h2, ← h1, hdrop5]
    have h3 : List.replicate (k + 1) 48 ++ (59 :: (ds ++ [126])) =
        (List.replicate (k + 1) 48 ++ [59]) ++ (ds ++ [126]) := by
      simp
    rw [h3]
    exact @List.drop_left' _ (List.replicate (k + 1) 48 ++ [59]) _ (k + 2)
      (by simp)
  have hlast : (mokZeroBytes ds k).getLast? = some 126 := by
    have h2 : mokZeroBytes ds k =
        ([27, 91, 50, 55, 59] ++ (List.replicate (k + 1) 48 ++ 59 :: ds)) ++
          [126] := by
      simp [mokZeroBytes]
    rw [h2]
    exact List.getLast?_concat _
  have hpre : [27, 91, 50, 55, 59].isPrefixOf (mokZeroBytes ds k) = true := by
    rfl
  unfold parse_modify_other_keysE
  rw [if_neg (by rw [hpre]; simp; omega)]
  rw [hlast]
  norm_num
  have hE : (mokZeroBytes ds k).length - 1 = ds.length + (k + 7) := by
    omega
  rw [hE]
  unfold mokTail
  rw [if_neg (by omega)]
  rw [parse_digits_run (mokZeroBytes ds k) 5 (ds.length + (k + 7))
    (List.replicate (k + 1) 48) (59 :: (ds ++ [126])) (by simp)
    (fun d hd => by rw [List.eq_of_mem_replicate hd]; rfl) hdrop5
    (by simp only [List.length_replicate]; omega)
    (Or.inr ⟨59, _, rfl, by decide⟩)]
  rw [runVal_zeros]
  simp only [Option.map_some', List.length_replicate]
  have hpeekSemi : peekIs (mokZeroBytes ds k) (5 + (k + 1))
      (ds.length + (k + 7)) 59 = .ok true := by
    unfold peekIs
    rw [if_pos (by omega)]
    have hgb : getByte (mokZeroBytes ds k) (5 + (k + 1)) = .ok 59 := by
      unfold getByte
      rw [hb59]
    rw [hgb]
    rfl
  simp only [hpeekSemi]
  rw [parse_digits_run (mokZeroBytes ds k) (5 + (k + 1) + 1)
    (ds.length + (k + 7)) ds [126] hne hdig hdropKey (by omega)
    (Or.inl (by omega))]
  cases hrv : runVal 0 ds with
  | none =>
    rfl
  | some v =>
    simp only [Option.map_some']
    simp

/-- C6: a raw modifier field of zero always fails to decode.  For every
nonempty digit run `ds` (the key field) and every number of explicit zero
digits in the modifiers field, the CSI-u form `ESC [ ds ; 0…0 u`, the
functional form `ESC [ ds ; 0…0 ~`, the `CSI 1 ; 0…0 <letter>` form (for
every letter the decoder dispatches on), and the modifyOtherKeys form
`ESC [ 2 7 ; 0…0 ; ds ~` all return an absent value. -/
theorem C6_modifier_zero_fails (ds : List Nat) (k L : Nat) (hne : ds ≠ [])
    (hdig : ∀ d ∈ ds, isDigitByte d = true)
    (hL : L = 65 ∨ L = 66 ∨ L = 67 ∨ L = 68 ∨ L = 69 ∨ L = 70 ∨ L = 72 ∨
      L = 80 ∨ L = 81 ∨ L = 82 ∨ L = 83) :
    parse_kitty_sequence (csiUZeroBytes ds k) = none ∧
      parse_kitty_sequence (functionalZeroBytes ds k) = none ∧
      parse_kitty_sequence (csi1ZeroBytes k L) = none ∧
      parse_modify_other_keys (mokZeroBytes ds k) = none := by
  refine ⟨?_, ?_, ?_, ?_⟩
  · unfold parse_kitty_sequence
    rw [csiU_zero_aux ds k hne hdig]
  · unfold parse_kitty_sequence
    rw [functional_zero_aux ds k hne hdig]
  · unfold parse_kitty_sequence
    rw [csi1_zero_aux k L hL]
  · unfold parse_modify_other_keys
    rw [mok_zero_aux ds k hne hdig]

/-- Witness for C6 at a concrete input: key field "6", one zero in the
modifiers field, letter `A`. -/
theorem C6_modifier_zero_fails_witness :
    parse_kitty_sequence (csiUZeroBytes [54] 0) = none ∧
      parse_kitty_sequence (functionalZeroBytes [54] 0) = none ∧
      parse_kitty_sequence (csi1ZeroBytes 0 65) = none ∧
      parse_modify_other_keys (mokZeroBytes [54] 0) = none :=
  C6_modifier_zero_fails [54] 0 65 (by decide) (by decide) (Or.inl rfl)

/-- C10: for every input byte sequence and both protocol modes,
`matches_key` with key spec "return" returns the same boolean as with key
spec "enter" — the matcher's enter branch accepts both spellings. -/
theorem C10_return_enter_synonym :
    ∀ (bytes : List Nat) (kitty_protocol_active : Bool),
      matches_key bytes "return" kitty_protocol_active =
        matches_key bytes "enter" kitty_protocol_active := by
  intro bytes active
  rfl

end OhMyPi
